import Mathlib

/-!
# AR7100 PCI host glue: calibration scan and register fixup

Shallow embedding of `arch/mips/pci/pci-ar7100.c` (functions `getCalData`,
`ath_pci_fixup`, `ar71xx_pci_fixup`, `ar7100_pcibios_init`) for the build without
`CONFIG_DIR825` and `CONFIG_WNDR3700`.

Conventions of the embedding:
* addresses and machine words are natural numbers; a memory is a function from byte
  address to byte (every cell is read modulo 256);
* the CPU is big-endian (AR71xx), PCI configuration space is little-endian;
* `printk`, `udelay` and `mdelay` change nothing that is modelled and are left out;
* every access to the device (configuration read/write, register write, mapping) is
  appended to an event log, so that "no access happened" can be stated.
-/

namespace AR7100

/-! ## Memory -/

/-- Byte-addressed memory. -/
abbrev Mem := Nat → Nat

/-- Load of one byte. -/
def read8 (m : Mem) (a : Nat) : Nat := m a % 256

/-- Big-endian 16-bit load (`*(u16 *)a`). -/
def read16 (m : Mem) (a : Nat) : Nat := read8 m a * 256 + read8 m (a + 1)

/-- Big-endian 32-bit load (`*(u32 *)a`). -/
def read32 (m : Mem) (a : Nat) : Nat := read16 m a * 65536 + read16 m (a + 2)

/-- Big-endian 32-bit store: `__raw_writel(v, a)` on a RAM-backed window. -/
def __raw_writel (v : Nat) (a : Nat) (m : Mem) : Mem := fun x =>
  if x = a then v / 16777216 % 256
  else if x = a + 1 then v / 65536 % 256
  else if x = a + 2 then v / 256 % 256
  else if x = a + 3 then v % 256
  else m x

/-! ## Constants and macros that live in headers outside the translated file -/

/-- Header-supplied macros and constants used by `pci-ar7100.c`. They are taken as
parameters: `KSEG1ADDR` (asm/addrspace.h), `PCI_SLOT` (linux/pci.h),
`AR71XX_PCI_MEM_BASE` (ar7100.h) and the length in 16-bit words of
`ath9k_platform_data.eeprom_data` (linux/ath9k_platform.h). -/
structure Platform where
  KSEG1ADDR : Nat → Nat
  PCI_SLOT : Nat → Nat
  AR71XX_PCI_MEM_BASE : Nat
  ATH9K_PLAT_EEP_MAX_WORDS : Nat

/-- The values these macros have in the kernel headers of the AR71xx platform. -/
def ar71xx : Platform where
  KSEG1ADDR := fun a => (a &&& 0x1fffffff) ||| 0xa0000000
  PCI_SLOT := fun devfn => (devfn >>> 3) &&& 0x1f
  AR71XX_PCI_MEM_BASE := 0x10000000
  ATH9K_PLAT_EEP_MAX_WORDS := 2048

/-- Source `#define STARTSCAN 0x1f000000` (the branch without `CONFIG_DIR825`). -/
def STARTSCAN : Nat := 0x1f000000

/-! ## getCalData -/

/-- The test `*cal==0xa55a0000 || *cal==0x5aa50000`. -/
def isCalMagic (word : Nat) : Prop := word = 0xa55a0000 ∨ word = 0x5aa50000

instance (word : Nat) : Decidable (isCalMagic word) := by
  unfold isCalMagic; infer_instance

/-- The `for` loop of `getCalData`, entered with the current value of `base`.
`none` is the `return NULL` after the loop. -/
def getCalData.loop (P : Platform) (flash : Mem) (slot : Int) (base : Nat) : Option Nat :=
  if base < P.KSEG1ADDR 0x1ffff000 then
    if isCalMagic (read32 flash base) then
      if slot ≠ 0 then some (base + 0x4000) else some base
    else getCalData.loop P flash slot (base + 0x1000)
  else none
termination_by P.KSEG1ADDR 0x1ffff000 - base
decreasing_by omega

/-- Source `static void *getCalData(int slot)`; `none` stands for `NULL`. -/
def getCalData (P : Platform) (flash : Mem) (slot : Int) : Option Nat :=
  getCalData.loop P flash slot (P.KSEG1ADDR STARTSCAN)

/-! ## PCI configuration space -/

/-- Modelled from the spec: standard PCI configuration-space offset of the
vendor/device identifier (linux/pci_regs.h is not part of the translated file). -/
def PCI_VENDOR_ID : Nat := 0x00

/-- Modelled from the spec: standard PCI configuration-space offset of the
command register. -/
def PCI_COMMAND : Nat := 0x04

/-- Modelled from the spec: standard PCI configuration-space offset of the
class/revision register. -/
def PCI_CLASS_REVISION : Nat := 0x08

/-- Modelled from the spec: standard PCI configuration-space offset of BAR0. -/
def PCI_BASE_ADDRESS_0 : Nat := 0x10

/-- Modelled from the spec: memory-space enable bit of the command register. -/
def PCI_COMMAND_MEMORY : Nat := 0x2

/-- Modelled from the spec: bus-master enable bit of the command register. -/
def PCI_COMMAND_MASTER : Nat := 0x4

/-- Modelled from the spec: standard PCI command bit (memory write and invalidate). -/
def PCI_COMMAND_INVALIDATE : Nat := 0x10

/-- Modelled from the spec: standard PCI command bit (parity error response). -/
def PCI_COMMAND_PARITY : Nat := 0x40

/-- Modelled from the spec: standard PCI command bit (SERR enable). -/
def PCI_COMMAND_SERR : Nat := 0x100

/-- Modelled from the spec: standard PCI command bit (fast back-to-back). -/
def PCI_COMMAND_FAST_BACK : Nat := 0x200

/-- Little-endian 16-bit load from a RAM-backed configuration space. -/
def config_word (cfg : Mem) (off : Nat) : Nat := read8 cfg off + 256 * read8 cfg (off + 1)

/-- Little-endian 32-bit load from a RAM-backed configuration space. -/
def config_dword (cfg : Mem) (off : Nat) : Nat :=
  config_word cfg off + 65536 * config_word cfg (off + 2)

/-- Little-endian 16-bit store into a RAM-backed configuration space. -/
def set_config_word (cfg : Mem) (off val : Nat) : Mem := fun x =>
  if x = off then val % 256
  else if x = off + 1 then val / 256 % 256
  else cfg x

/-- Little-endian 32-bit store into a RAM-backed configuration space. -/
def set_config_dword (cfg : Mem) (off val : Nat) : Mem := fun x =>
  if x = off then val % 256
  else if x = off + 1 then val / 256 % 256
  else if x = off + 2 then val / 65536 % 256
  else if x = off + 3 then val / 16777216 % 256
  else cfg x

/-! ## State -/

/-- Accesses to hardware and calls into the kernel, in program order. -/
inductive Event where
  | config_read (off size : Nat)
  | config_write (off size val : Nat)
  | raw_writel (reg val : Nat)
  | ioremap (ok : Bool)
  | iounmap
  | reset_set
  | reset_clear
  | write_pci_window (idx : Nat)
  | local_write_config (off size val : Nat)
  | check_error (verbose : Nat)
  | register_pci_controller
  | request_irq
  deriving DecidableEq, Repr

/-- Value of the pointer `dev->dev.platform_data`: either one of the two entries of
`wmac_data` or some other address. -/
inductive platform_ptr where
  | other (addr : Nat)
  | wmac_data (idx : Nat)
  deriving DecidableEq, Repr

/-- The fields of `struct pci_dev` the file reads or writes. -/
structure pci_dev where
  bus_number : Nat
  devfn : Nat
  vendor : Nat
  device : Nat
  class_ : Nat
  revision : Nat
  platform_data : platform_ptr
  deriving DecidableEq, Repr

/-- The field of `struct ath9k_platform_data` written in this build. -/
structure ath9k_platform_data where
  eeprom_data : List Nat
  deriving DecidableEq, Repr

/-- Everything the translated functions read or write. -/
structure World where
  ar71xx_pci_fixup_enable : Int
  flash : Mem
  config : Mem
  mem : Mem
  dev : pci_dev
  wmac_data : Nat → ath9k_platform_data
  log : List Event

/-- Append one event to the log. -/
def World.emit (w : World) (e : Event) : World := { w with log := w.log ++ [e] }

/-- Kernel call `pci_read_config_word(dev, off, &v)`. -/
def pci_read_config_word (w : World) (off : Nat) : Nat × World :=
  (config_word w.config off, w.emit (.config_read off 2))

/-- Kernel call `pci_read_config_dword(dev, off, &v)`. -/
def pci_read_config_dword (w : World) (off : Nat) : Nat × World :=
  (config_dword w.config off, w.emit (.config_read off 4))

/-- Kernel call `pci_write_config_word(dev, off, val)`. -/
def pci_write_config_word (w : World) (off val : Nat) : World :=
  { w with config := set_config_word w.config off val,
           log := w.log ++ [.config_write off 2 val] }

/-- Kernel call `pci_write_config_dword(dev, off, val)`. -/
def pci_write_config_dword (w : World) (off val : Nat) : World :=
  { w with config := set_config_dword w.config off val,
           log := w.log ++ [.config_write off 4 val] }

/-! ## ar71xx_pci_fixup -/

/-- Source `static void ar71xx_pci_fixup(struct pci_dev *dev)`. -/
def ar71xx_pci_fixup (w : World) : World :=
  if w.ar71xx_pci_fixup_enable = 0 then w
  else if w.dev.bus_number ≠ 0 ∨ w.dev.devfn ≠ 0 then w
  else
    let t := PCI_COMMAND_MEMORY ||| PCI_COMMAND_MASTER ||| PCI_COMMAND_INVALIDATE
      ||| PCI_COMMAND_PARITY ||| PCI_COMMAND_SERR ||| PCI_COMMAND_FAST_BACK
    pci_write_config_word w PCI_COMMAND t

/-! ## ath_pci_fixup -/

/-- The `memcpy` into `wmac_data[idx].eeprom_data` followed by
`dev->dev.platform_data = &wmac_data[idx]`. -/
def ath_pci_fixup.publish (P : Platform) (w : World) (idx cal_data : Nat) : World :=
  { w with
    wmac_data := Function.update w.wmac_data idx
      ⟨(List.range P.ATH9K_PLAT_EEP_MAX_WORDS).map fun i => read16 w.flash (cal_data + 2 * i)⟩,
    dev := { w.dev with platform_data := .wmac_data idx } }

/-- The `while (*cal_data != 0xffff)` loop, entered with the current `cal_data`.
`none` means the budget of iterations ran out before the loop condition failed. -/
def ath_pci_fixup.loop : Nat → Nat → World → Option World
  | 0, _, _ => none
  | fuel + 1, cal_data, w =>
    if read16 w.flash cal_data ≠ 0xffff then
      let reg := read16 w.flash cal_data
      let val := read16 w.flash (cal_data + 2)
      let val := val ||| (read16 w.flash (cal_data + 4) <<< 16) % 2 ^ 32
      ath_pci_fixup.loop fuel (cal_data + 6)
        { w with mem := __raw_writel val reg w.mem, log := w.log ++ [.raw_writel reg val] }
    else some w

/-- The part of `ath_pci_fixup` after the `switch`, reached with `cal_data != NULL`.
`ioremap_ok` tells whether `ioremap` returns a mapping. -/
def ath_pci_fixup.apply (P : Platform) (fuel : Nat) (ioremap_ok : Bool) (cal_data : Nat)
    (w : World) : Option World :=
  if !ioremap_ok then some (w.emit (.ioremap false))
  else
    let w := w.emit (.ioremap true)
    let (bar0, w) := pci_read_config_dword w PCI_BASE_ADDRESS_0
    let w := pci_write_config_dword w PCI_BASE_ADDRESS_0 P.AR71XX_PCI_MEM_BASE
    let (cmd, w) := pci_read_config_word w PCI_COMMAND
    let cmd := cmd ||| (PCI_COMMAND_MASTER ||| PCI_COMMAND_MEMORY)
    let w := pci_write_config_word w PCI_COMMAND cmd
    match ath_pci_fixup.loop fuel (cal_data + 2 * 3) w with
    | none => none
    | some w =>
      let (val, w) := pci_read_config_dword w PCI_VENDOR_ID
      let w := { w with dev := { w.dev with vendor := val &&& 0xffff,
                                             device := (val >>> 16) &&& 0xffff } }
      let (val, w) := pci_read_config_dword w PCI_CLASS_REVISION
      let w := { w with dev := { w.dev with revision := val &&& 0xff, class_ := val >>> 8 } }
      let (cmd, w) := pci_read_config_word w PCI_COMMAND
      let cmd := (cmd &&& (0xffffffff ^^^ (PCI_COMMAND_MASTER ||| PCI_COMMAND_MEMORY))) % 2 ^ 16
      let w := pci_write_config_word w PCI_COMMAND cmd
      let w := pci_write_config_dword w PCI_BASE_ADDRESS_0 bar0
      some (w.emit .iounmap)

/-- Source `static void ath_pci_fixup(struct pci_dev *dev)`. The result is `none` when the
register-write loop does not finish within `fuel` iterations. -/
def ath_pci_fixup (P : Platform) (fuel : Nat) (ioremap_ok : Bool) (w : World) : Option World :=
  if w.ar71xx_pci_fixup_enable = 0 then some w
  else
    match P.PCI_SLOT w.dev.devfn with
    | 0 =>
      match getCalData P w.flash 0 with
      | some cal_data =>
        ath_pci_fixup.apply P fuel ioremap_ok cal_data (ath_pci_fixup.publish P w 0 cal_data)
      | none => some w
    | 1 =>
      match getCalData P w.flash 1 with
      | some cal_data =>
        ath_pci_fixup.apply P fuel ioremap_ok cal_data (ath_pci_fixup.publish P w 1 cal_data)
      | none => some w
    | _ => some w

/-! ## ar7100_pcibios_init -/

/-- The statements of `ar7100_pcibios_init`, one state transformer per statement, in
program order. -/
def ar7100_pcibios_init.steps : List (World → World) :=
  [ fun w => w.emit .reset_set,
    fun w => w.emit .reset_clear,
    fun w => w.emit (.write_pci_window 0),
    fun w => w.emit (.write_pci_window 1),
    fun w => w.emit (.write_pci_window 2),
    fun w => w.emit (.write_pci_window 3),
    fun w => w.emit (.write_pci_window 4),
    fun w => w.emit (.write_pci_window 5),
    fun w => w.emit (.write_pci_window 6),
    fun w => w.emit (.write_pci_window 7),
    fun w => w.emit (.local_write_config PCI_COMMAND 4
      (PCI_COMMAND_MEMORY ||| PCI_COMMAND_MASTER ||| PCI_COMMAND_INVALIDATE |||
        PCI_COMMAND_PARITY ||| PCI_COMMAND_SERR ||| PCI_COMMAND_FAST_BACK)),
    fun w => w.emit (.check_error 0),
    fun w => { w with ar71xx_pci_fixup_enable := 1 },
    fun w => w.emit .register_pci_controller,
    fun w => w.emit .request_irq ]

/-- State after the first `k` statements of `ar7100_pcibios_init`. -/
def ar7100_pcibios_init.run (k : Nat) (w : World) : World :=
  (ar7100_pcibios_init.steps.take k).foldl (fun s f => f s) w

/-- Source `static int __init ar7100_pcibios_init(void)`: all statements, in order. -/
def ar7100_pcibios_init (w : World) : World :=
  ar7100_pcibios_init.run ar7100_pcibios_init.steps.length w

/-- Indices of the window registers written so far, in the order of the writes. -/
def windows_written : List Event → List Nat
  | [] => []
  | .write_pci_window i :: es => i :: windows_written es
  | _ :: es => windows_written es

/-- Address of the `k`-th 4 KB block visited by the scan of `getCalData`. -/
def scan_block (P : Platform) (k : Nat) : Nat := P.KSEG1ADDR STARTSCAN + k * 0x1000

/-- The `k`-th block lies below the scan bound and starts with a magic word. -/
def scan_hit (P : Platform) (flash : Mem) (k : Nat) : Prop :=
  scan_block P k < P.KSEG1ADDR 0x1ffff000 ∧ isCalMagic (read32 flash (scan_block P k))

instance (P : Platform) (flash : Mem) (k : Nat) : Decidable (scan_hit P flash k) := by
  unfold scan_hit; infer_instance

/-- Flash content whose only non-zero bytes are the magic word `0xa55a0000` stored
big-endian at address `b`. -/
def flash_with_magic_at (b : Nat) : Mem := fun x =>
  if x = b then 0xa5 else if x = b + 1 then 0x5a else 0

/-- Register word of the `k`-th triple of a write list whose first triple is at `p`. -/
def cal_reg (flash : Mem) (p k : Nat) : Nat := read16 flash (p + 6 * k)

/-- Value-low word of the `k`-th triple. -/
def cal_lo (flash : Mem) (p k : Nat) : Nat := read16 flash (p + 6 * k + 2)

/-- Value-high word of the `k`-th triple. -/
def cal_hi (flash : Mem) (p k : Nat) : Nat := read16 flash (p + 6 * k + 4)

/-- The first `n` triples of the write list at `p`, as (register, lo | hi << 16). -/
def cal_writes (flash : Mem) (p n : Nat) : List (Nat × Nat) :=
  (List.range n).map fun k => (cal_reg flash p k, cal_lo flash p k ||| (cal_hi flash p k <<< 16))

/-- A RAM-backed window after a sequence of 32-bit stores, applied in order. -/
def store_all (ws : List (Nat × Nat)) (m : Mem) : Mem :=
  ws.foldl (fun m rv => __raw_writel rv.2 rv.1 m) m

/-- The state after the register writes `ws` were issued in order: the window holds
the stores, the log has one `raw_writel` event per store, nothing else changed. -/
def World.after_writes (w : World) (ws : List (Nat × Nat)) : World :=
  { w with mem := store_all ws w.mem,
           log := w.log ++ ws.map fun rv => Event.raw_writel rv.1 rv.2 }

/-- The slot index and calibration pointer chosen by the `switch` of `ath_pci_fixup`,
or `none` when the function returns before `ioremap` (fixups disabled, slot other
than 0 and 1, or no calibration data). -/
def ath_pci_fixup.target (P : Platform) (w : World) : Option (Nat × Nat) :=
  if w.ar71xx_pci_fixup_enable = 0 then none
  else
    match P.PCI_SLOT w.dev.devfn with
    | 0 => (getCalData P w.flash 0).map fun c => (0, c)
    | 1 => (getCalData P w.flash 1).map fun c => (1, c)
    | _ => none

/-- Value left in the command register by the success path: the value before the
call with the bus-master and memory-space bits cleared. -/
def cleared_command (cmd : Nat) : Nat := cmd &&& 0xfff9

/-- Closed form of the state returned by the success path of `ath_pci_fixup.apply`
when the write list at `c` has `n` triples before its sentinel (proved equal to the
translated code in `ath_pci_fixup.apply_mapped`). -/
def ath_pci_fixup.outcome (P : Platform) (c n : Nat) (w : World) : World :=
  { w with
    config :=
      set_config_dword
        (set_config_word
          (set_config_word
            (set_config_dword w.config PCI_BASE_ADDRESS_0 P.AR71XX_PCI_MEM_BASE)
            PCI_COMMAND (config_word w.config PCI_COMMAND ||| 6))
          PCI_COMMAND (cleared_command (config_word w.config PCI_COMMAND)))
        PCI_BASE_ADDRESS_0 (config_dword w.config PCI_BASE_ADDRESS_0),
    mem := store_all (cal_writes w.flash (c + 2 * 3) n) w.mem,
    dev := { w.dev with
      vendor := config_dword w.config PCI_VENDOR_ID &&& 0xffff,
      device := (config_dword w.config PCI_VENDOR_ID >>> 16) &&& 0xffff,
      revision := config_dword w.config PCI_CLASS_REVISION &&& 0xff,
      class_ := config_dword w.config PCI_CLASS_REVISION >>> 8 },
    log := w.log ++
      ([Event.ioremap true,
        Event.config_read PCI_BASE_ADDRESS_0 4,
        Event.config_write PCI_BASE_ADDRESS_0 4 P.AR71XX_PCI_MEM_BASE,
        Event.config_read PCI_COMMAND 2,
        Event.config_write PCI_COMMAND 2 (config_word w.config PCI_COMMAND ||| 6)]
      ++ ((cal_writes w.flash (c + 2 * 3) n).map fun rv => Event.raw_writel rv.1 rv.2)
      ++ [Event.config_read PCI_VENDOR_ID 4,
          Event.config_read PCI_CLASS_REVISION 4,
          Event.config_read PCI_COMMAND 2,
          Event.config_write PCI_COMMAND 2 (cleared_command (config_word w.config PCI_COMMAND)),
          Event.config_write PCI_BASE_ADDRESS_0 4 (config_dword w.config PCI_BASE_ADDRESS_0),
          Event.iounmap]) }

/-! ## Concrete inputs -/

/-- Flash holding the 16-bit words `ws` big-endian from address `base`, zero elsewhere. -/
def flash_of_words (base : Nat) (ws : List Nat) : Mem := fun x =>
  if base ≤ x ∧ x < base + 2 * ws.length then
    if (x - base) % 2 = 0 then ws.getD ((x - base) / 2) 0 / 256
    else ws.getD ((x - base) / 2) 0 % 256
  else 0

/-- A calibration block at the start of the scan range: magic `0xa55a0000`, one more
header word, the triples `(0x10, 0x1234, 0x5678)` and `(0x20, 0xffff, 0x0001)`, then
the sentinel `0xffff`. -/
def sample_flash : Mem :=
  flash_of_words 0xbf000000
    [0xa55a, 0x0000, 0x0000, 0x0010, 0x1234, 0x5678, 0x0020, 0xffff, 0x0001, 0xffff]

/-- A configuration space with vendor `0x168c`, device `0xff1d`, revision `0x01`,
class `0x028000`, BAR0 `0x0000c000` and the command register holding `cmd` (below
`0x100`). -/
def sample_config (cmd : Nat) : Mem := fun x =>
  if x = 0 then 0x8c else if x = 1 then 0x16 else if x = 2 then 0x1d else if x = 3 then 0xff
  else if x = 4 then cmd
  else if x = 8 then 0x01 else if x = 10 then 0x80 else if x = 11 then 0x02
  else if x = 17 then 0xc0
  else 0

/-- A state after `ar7100_pcibios_init` (fixups enabled) with one Atheros device at
`devfn`, nothing published and nothing logged yet. -/
def sample_world (flash config : Mem) (devfn : Nat) : World where
  ar71xx_pci_fixup_enable := 1
  flash := flash
  config := config
  mem := fun _ => 0
  dev := { bus_number := 0, devfn := devfn, vendor := 0x168c, device := 0xff1d,
           class_ := 0x028000, revision := 1, platform_data := .other 0 }
  wmac_data := fun _ => ⟨[]⟩
  log := []

/-- The state at boot: the sample device with `ar71xx_pci_fixup_enable` still zero. -/
def boot_world : World :=
  { sample_world sample_flash (sample_config 0) 0 with ar71xx_pci_fixup_enable := 0 }

/-! ## Facts about getCalData -/

theorem getCalData.loop_unfold (P : Platform) (flash : Mem) (slot : Int) (base : Nat) :
    getCalData.loop P flash slot base =
      if base < P.KSEG1ADDR 0x1ffff000 then
        if isCalMagic (read32 flash base) then
          if slot ≠ 0 then some (base + 0x4000) else some base
        else getCalData.loop P flash slot (base + 0x1000)
      else none := by
  rw [getCalData.loop]

/-- A scan that meets no magic word below the bound returns `NULL`. -/
theorem getCalData.loop_none (P : Platform) (flash : Mem) (slot : Int) :
    ∀ (n base : Nat), P.KSEG1ADDR 0x1ffff000 - base ≤ n →
      (∀ k, base + k * 0x1000 < P.KSEG1ADDR 0x1ffff000 →
        ¬ isCalMagic (read32 flash (base + k * 0x1000))) →
      getCalData.loop P flash slot base = none := by
  intro n
  induction n with
  | zero =>
    intro base hn _
    rw [getCalData.loop_unfold, if_neg (by omega)]
  | succ n ih =>
    intro base hn hfree
    rw [getCalData.loop_unfold]
    by_cases hb : base < P.KSEG1ADDR 0x1ffff000
    · have h0 := hfree 0 (by simpa using hb)
      simp only [Nat.zero_mul, Nat.add_zero] at h0
      rw [if_pos hb, if_neg h0]
      apply ih (base + 0x1000) (by omega)
      intro k hk
      have := hfree (k + 1) (by omega)
      have e : base + (k + 1) * 0x1000 = base + 0x1000 + k * 0x1000 := by omega
      rwa [e] at this
    · rw [if_neg hb]

/-- A scan whose first magic word is `k` blocks ahead returns that block (plus the
slot stride when `slot` is non-zero). -/
theorem getCalData.loop_first (P : Platform) (flash : Mem) (slot : Int) :
    ∀ (k base : Nat), base + k * 0x1000 < P.KSEG1ADDR 0x1ffff000 →
      isCalMagic (read32 flash (base + k * 0x1000)) →
      (∀ j, j < k → ¬ isCalMagic (read32 flash (base + j * 0x1000))) →
      getCalData.loop P flash slot base =
        if slot ≠ 0 then some (base + k * 0x1000 + 0x4000) else some (base + k * 0x1000) := by
  intro k
  induction k with
  | zero =>
    intro base hlt hm _
    simp only [Nat.zero_mul, Nat.add_zero] at hlt hm ⊢
    rw [getCalData.loop_unfold, if_pos hlt, if_pos hm]
  | succ k ih =>
    intro base hlt hm hfree
    have e : base + (k + 1) * 0x1000 = base + 0x1000 + k * 0x1000 := by omega
    have h0 := hfree 0 (by omega)
    simp only [Nat.zero_mul, Nat.add_zero] at h0
    rw [getCalData.loop_unfold, if_pos (by omega), if_neg h0, e]
    rw [e] at hlt hm
    apply ih (base + 0x1000) hlt hm
    intro j hj
    have := hfree (j + 1) (by omega)
    have e2 : base + (j + 1) * 0x1000 = base + 0x1000 + j * 0x1000 := by omega
    rwa [e2] at this

/-- Result of `getCalData` when block `k` is the first hit. -/
theorem getCalData_of_first_hit (P : Platform) (flash : Mem) (slot : Int) (k : Nat)
    (hk : scan_hit P flash k) (hfirst : ∀ j, j < k → ¬ scan_hit P flash j) :
    getCalData P flash slot =
      if slot ≠ 0 then some (scan_block P k + 0x4000) else some (scan_block P k) := by
  unfold getCalData
  apply getCalData.loop_first P flash slot k _ hk.1 hk.2
  intro j hj hm
  apply hfirst j hj
  refine ⟨?_, hm⟩
  have := hk.1
  unfold scan_block at this ⊢
  omega

/-- Result of `getCalData` when no block is a hit. -/
theorem getCalData_of_no_hit (P : Platform) (flash : Mem) (slot : Int)
    (hno : ∀ k, ¬ scan_hit P flash k) : getCalData P flash slot = none := by
  unfold getCalData
  apply getCalData.loop_none P flash slot _ _ (Nat.le_refl _)
  intro k hk hm
  exact hno k ⟨hk, hm⟩

/-- Either some block is a first hit, or no block is a hit. -/
theorem scan_hit_first_or_none (P : Platform) (flash : Mem) :
    (∃ k, scan_hit P flash k ∧ ∀ j, j < k → ¬ scan_hit P flash j) ∨
      (∀ k, ¬ scan_hit P flash k) := by
  by_cases h : ∃ k, scan_hit P flash k
  · left
    exact ⟨Nat.find h, Nat.find_spec h, fun j hj => Nat.find_min h hj⟩
  · right
    intro k hk
    exact h ⟨k, hk⟩

/-- Two first hits are the same block. -/
theorem scan_hit_first_unique (P : Platform) (flash : Mem) (k k2 : Nat)
    (hk : scan_hit P flash k) (hfirst : ∀ j, j < k → ¬ scan_hit P flash j)
    (hk2 : scan_hit P flash k2) (hfirst2 : ∀ j, j < k2 → ¬ scan_hit P flash j) : k = k2 := by
  rcases Nat.lt_trichotomy k k2 with h | h | h
  · exact absurd hk (hfirst2 k h)
  · exact h
  · exact absurd hk2 (hfirst k2 h)

/-- The slot-1 result is the slot-0 result moved up by 16 KB. -/
theorem getCalData_slot1_eq_map (P : Platform) (flash : Mem) :
    getCalData P flash 1 = (getCalData P flash 0).map (fun a => a + 0x4000) := by
  rcases scan_hit_first_or_none P flash with ⟨k, hk, hfirst⟩ | hno
  · rw [getCalData_of_first_hit P flash 1 k hk hfirst,
      getCalData_of_first_hit P flash 0 k hk hfirst]
    simp
  · rw [getCalData_of_no_hit P flash 1 hno, getCalData_of_no_hit P flash 0 hno]
    rfl

theorem read32_flash_with_magic_at (b : Nat) : read32 (flash_with_magic_at b) b = 0xa55a0000 := by
  have h : b + 2 + 1 ≠ b := by omega
  simp [read32, read16, read8, flash_with_magic_at, h]

theorem read32_flash_with_magic_below (b a : Nat) (h : a + 3 < b) :
    read32 (flash_with_magic_at b) a = 0 := by
  have h1 : a ≠ b := by omega
  have h2 : a ≠ b + 1 := by omega
  have h3 : a + 1 ≠ b := by omega
  have h4 : a + 2 ≠ b := by omega
  have h5 : a + 3 ≠ b := by omega
  have h6 : a + 2 ≠ b + 1 := by omega
  have h7 : a + 3 ≠ b + 1 := by omega
  simp [read32, read16, read8, flash_with_magic_at, h1, h2, h3, h4, h5, h6, h7]

/-- The magic word stored in block `K` alone makes block `K` the first hit. -/
theorem flash_with_magic_at_first_hit (P : Platform) (K : Nat)
    (hK : scan_block P K < P.KSEG1ADDR 0x1ffff000) :
    scan_hit P (flash_with_magic_at (scan_block P K)) K ∧
      ∀ j, j < K → ¬ scan_hit P (flash_with_magic_at (scan_block P K)) j := by
  constructor
  · refine ⟨hK, ?_⟩
    rw [read32_flash_with_magic_at]
    left; rfl
  · intro j hj hhit
    have hlt : scan_block P j + 3 < scan_block P K := by
      unfold scan_block; omega
    have := hhit.2
    rw [read32_flash_with_magic_below _ _ hlt] at this
    revert this
    decide

/-- C1: for every flash content, `getCalData(0)` returns the address of the lowest
4 KB block, counted from `KSEG1ADDR(STARTSCAN)` in steps of `0x1000` and strictly below
`KSEG1ADDR(0x1ffff000)`, whose first 32-bit word is `0xa55a0000` or `0x5aa50000`; it
returns `NULL` exactly when no block in that range starts with such a word. -/
theorem C1_getCalData_lowest_magic_block (P : Platform) (flash : Mem) :
    (∀ a, getCalData P flash 0 = some a ↔
      ∃ k, a = scan_block P k ∧ scan_hit P flash k ∧ ∀ j, j < k → ¬ scan_hit P flash j) ∧
    (getCalData P flash 0 = none ↔ ∀ k, ¬ scan_hit P flash k) := by
  rcases scan_hit_first_or_none P flash with ⟨k, hk, hfirst⟩ | hno
  · have hres := getCalData_of_first_hit P flash 0 k hk hfirst
    simp only [ne_eq, not_true_eq_false, if_false] at hres
    refine ⟨fun a => ⟨fun h => ?_, fun h => ?_⟩, ⟨fun h => ?_, fun h => ?_⟩⟩
    · rw [hres] at h
      exact ⟨k, (Option.some.inj h).symm, hk, hfirst⟩
    · obtain ⟨k2, ha, hk2, hfirst2⟩ := h
      have e := scan_hit_first_unique P flash k k2 hk hfirst hk2 hfirst2
      rw [hres, ha, e]
    · rw [hres] at h
      exact absurd h (by simp)
    · exact absurd hk (h k)
  · have hres := getCalData_of_no_hit P flash 0 hno
    refine ⟨fun a => ⟨fun h => ?_, fun h => ?_⟩, ⟨fun _ => hno, fun _ => hres⟩⟩
    · rw [hres] at h
      exact absurd h (by simp)
    · obtain ⟨k2, _, hk2, _⟩ := h
      exact absurd hk2 (hno k2)

/-- Witness of C1: with the magic word stored only in the third block of the AR71xx
scan range, `getCalData(0)` returns the address of that block. -/
theorem C1_getCalData_lowest_magic_block_witness :
    getCalData ar71xx (flash_with_magic_at 0xbf002000) 0 = some 0xbf002000 :=
  ((C1_getCalData_lowest_magic_block ar71xx (flash_with_magic_at 0xbf002000)).1 0xbf002000).2
    ⟨2, by decide, (flash_with_magic_at_first_hit ar71xx 2 (by decide)).1,
      (flash_with_magic_at_first_hit ar71xx 2 (by decide)).2⟩

/-- C2: for every flash content, `getCalData(1)` is found exactly when `getCalData(0)`
is found, and then it is the slot-0 address plus `0x4000`; in particular, when the
magic `0xa55a0000` is first found at offset `0x2000` from the scan base `B`,
`getCalData(0) = B + 0x2000` and `getCalData(1) = B + 0x2000 + 0x4000`. -/
theorem C2_getCalData_slot1_stride (P : Platform) (flash : Mem) :
    ((getCalData P flash 1).isSome = (getCalData P flash 0).isSome) ∧
    (∀ a, getCalData P flash 0 = some a → getCalData P flash 1 = some (a + 0x4000)) ∧
    (∀ B, B = P.KSEG1ADDR STARTSCAN → B + 0x2000 < P.KSEG1ADDR 0x1ffff000 →
      read32 flash (B + 0x2000) = 0xa55a0000 →
      ¬ isCalMagic (read32 flash B) → ¬ isCalMagic (read32 flash (B + 0x1000)) →
      getCalData P flash 0 = some (B + 0x2000) ∧
        getCalData P flash 1 = some (B + 0x2000 + 0x4000)) := by
  have hmap := getCalData_slot1_eq_map P flash
  refine ⟨?_, ?_, ?_⟩
  · rw [hmap]; simp
  · intro a ha
    rw [hmap, ha]; rfl
  · intro B hB hlt hm h0 h1
    subst hB
    have hk : scan_hit P flash 2 := by
      refine ⟨by unfold scan_block; omega, ?_⟩
      show isCalMagic (read32 flash (P.KSEG1ADDR STARTSCAN + 2 * 0x1000))
      rw [show P.KSEG1ADDR STARTSCAN + 2 * 0x1000 = P.KSEG1ADDR STARTSCAN + 0x2000 by omega, hm]
      left; rfl
    have hfirst : ∀ j, j < 2 → ¬ scan_hit P flash j := by
      intro j hj hhit
      have hj2 : j = 0 ∨ j = 1 := by omega
      rcases hj2 with rfl | rfl
      · apply h0
        have := hhit.2
        simpa [scan_block] using this
      · apply h1
        have := hhit.2
        simpa [scan_block] using this
    have e : scan_block P 2 = P.KSEG1ADDR STARTSCAN + 0x2000 := by unfold scan_block; omega
    have r0 := getCalData_of_first_hit P flash 0 2 hk hfirst
    have r1 := getCalData_of_first_hit P flash 1 2 hk hfirst
    rw [e] at r0 r1
    constructor
    · simpa using r0
    · simpa using r1

/-- Witness of C2 on the AR71xx platform, with the magic stored at `B + 0x2000`. -/
theorem C2_getCalData_slot1_stride_witness :
    getCalData ar71xx (flash_with_magic_at 0xbf002000) 0 = some (0xbf000000 + 0x2000) ∧
      getCalData ar71xx (flash_with_magic_at 0xbf002000) 1
        = some (0xbf000000 + 0x2000 + 0x4000) :=
  (C2_getCalData_slot1_stride ar71xx (flash_with_magic_at 0xbf002000)).2.2 0xbf000000
    (by decide) (by decide) (read32_flash_with_magic_at _)
    (by rw [read32_flash_with_magic_below _ _ (by decide)]; decide)
    (by rw [read32_flash_with_magic_below _ _ (by decide)]; decide)

/-- C9: the scanner does not bound the slot-1 result: whenever the scan range is not
empty there is a flash content (the magic word in the last scanned block) for which
`getCalData(1)` returns an address at or beyond the scan bound
`KSEG1ADDR(0x1ffff000)`; and for every flash content whose first match lies within
`0x4000` bytes of the bound (one of the last four blocks), the slot-1 result is at or
beyond the bound. -/
theorem C9_getCalData_slot1_past_bound (P : Platform)
    (h : P.KSEG1ADDR STARTSCAN < P.KSEG1ADDR 0x1ffff000) :
    (∃ flash a b, getCalData P flash 0 = some a ∧ a < P.KSEG1ADDR 0x1ffff000 ∧
        getCalData P flash 1 = some b ∧ P.KSEG1ADDR 0x1ffff000 ≤ b) ∧
    (∀ flash a, getCalData P flash 0 = some a → P.KSEG1ADDR 0x1ffff000 ≤ a + 0x4000 →
        ∃ b, getCalData P flash 1 = some b ∧ P.KSEG1ADDR 0x1ffff000 ≤ b) := by
  constructor
  · let K := (P.KSEG1ADDR 0x1ffff000 - P.KSEG1ADDR STARTSCAN - 1) / 0x1000
    have hK : scan_block P K < P.KSEG1ADDR 0x1ffff000 := by
      show P.KSEG1ADDR STARTSCAN
        + (P.KSEG1ADDR 0x1ffff000 - P.KSEG1ADDR STARTSCAN - 1) / 0x1000 * 0x1000
          < P.KSEG1ADDR 0x1ffff000
      omega
    have hlast : P.KSEG1ADDR 0x1ffff000 ≤ scan_block P K + 0x4000 := by
      show P.KSEG1ADDR 0x1ffff000 ≤ P.KSEG1ADDR STARTSCAN
        + (P.KSEG1ADDR 0x1ffff000 - P.KSEG1ADDR STARTSCAN - 1) / 0x1000 * 0x1000 + 0x4000
      omega
    obtain ⟨hhit, hfirst⟩ := flash_with_magic_at_first_hit P K hK
    refine ⟨flash_with_magic_at (scan_block P K), scan_block P K, scan_block P K + 0x4000,
      ?_, hK, ?_, hlast⟩
    · simpa using getCalData_of_first_hit P _ 0 K hhit hfirst
    · simpa using getCalData_of_first_hit P _ 1 K hhit hfirst
  · intro flash a ha hnear
    refine ⟨a + 0x4000, ?_, hnear⟩
    rw [getCalData_slot1_eq_map, ha]
    rfl

/-- Witness of C9 on the AR71xx platform, whose scan range is
`0xbf000000 .. 0xbffff000`. -/
theorem C9_getCalData_slot1_past_bound_witness :
    ar71xx.KSEG1ADDR STARTSCAN < ar71xx.KSEG1ADDR 0x1ffff000 ∧
    ∃ flash a b, getCalData ar71xx flash 0 = some a ∧ a < ar71xx.KSEG1ADDR 0x1ffff000 ∧
        getCalData ar71xx flash 1 = some b ∧ ar71xx.KSEG1ADDR 0x1ffff000 ≤ b :=
  ⟨by decide, (C9_getCalData_slot1_past_bound ar71xx (by decide)).1⟩

/-! ## Facts about memory -/

theorem read8_lt (m : Mem) (a : Nat) : read8 m a < 256 := by
  unfold read8; omega

theorem read16_lt (m : Mem) (a : Nat) : read16 m a < 65536 := by
  have h1 := read8_lt m a
  have h2 := read8_lt m (a + 1)
  unfold read16; omega

/-- A 32-bit store followed by a 32-bit load at the same address. -/
theorem read32_raw_writel_same (v a : Nat) (m : Mem) :
    read32 (__raw_writel v a m) a = v % 4294967296 := by
  have h1 : a + 1 ≠ a := by omega
  have h2 : a + 2 ≠ a := by omega
  have h3 : a + 2 ≠ a + 1 := by omega
  have h4 : a + 2 + 1 ≠ a := by omega
  have h5 : a + 2 + 1 ≠ a + 1 := by omega
  have h6 : a + 2 + 1 ≠ a + 2 := by omega
  have h7 : a + 2 + 1 = a + 3 := by omega
  simp only [read32, read16, read8, __raw_writel, h1, h2, h3, h4, h5, h6, h7, if_true, if_false]
  omega

/-- A 32-bit store leaves every byte outside its four bytes alone. -/
theorem raw_writel_other (v a : Nat) (m : Mem) (x : Nat) (h : x < a ∨ a + 4 ≤ x) :
    __raw_writel v a m x = m x := by
  have h1 : x ≠ a := by omega
  have h2 : x ≠ a + 1 := by omega
  have h3 : x ≠ a + 2 := by omega
  have h4 : x ≠ a + 3 := by omega
  simp only [__raw_writel, h1, h2, h3, h4, if_false]

/-- Stores leave every byte that none of them covers alone. -/
theorem store_all_other (ws : List (Nat × Nat)) (m : Mem) (x : Nat)
    (h : ∀ rv ∈ ws, x < rv.1 ∨ rv.1 + 4 ≤ x) : store_all ws m x = m x := by
  induction ws generalizing m with
  | nil => rfl
  | cons rv ws ih =>
    have hrv := h rv (List.mem_cons_self _ _)
    have := ih (__raw_writel rv.2 rv.1 m) (fun rv2 h2 => h rv2 (List.mem_cons_of_mem _ h2))
    simp only [store_all, List.foldl_cons] at this ⊢
    rw [this, raw_writel_other _ _ _ _ hrv]

/-- A 32-bit load reads the same value from two memories that agree on its bytes. -/
theorem read32_congr (m1 m2 : Mem) (a : Nat)
    (h : ∀ x, a ≤ x → x < a + 4 → m1 x = m2 x) : read32 m1 a = read32 m2 a := by
  have e0 := h a (by omega) (by omega)
  have e1 := h (a + 1) (by omega) (by omega)
  have e2 := h (a + 2) (by omega) (by omega)
  have e3 := h (a + 2 + 1) (by omega) (by omega)
  simp only [read32, read16, read8, e0, e1, e2, e3]

theorem store_all_append (ws1 ws2 : List (Nat × Nat)) (m : Mem) :
    store_all (ws1 ++ ws2) m = store_all ws2 (store_all ws1 m) := by
  simp [store_all, List.foldl_append]

/-- The store to `r` that no later store overlaps determines the final word at `r`. -/
theorem read32_store_all_last (pre post : List (Nat × Nat)) (r v : Nat) (m : Mem)
    (h : ∀ rv ∈ post, rv.1 + 4 ≤ r ∨ r + 4 ≤ rv.1) :
    read32 (store_all (pre ++ (r, v) :: post) m) r = v % 4294967296 := by
  rw [store_all_append]
  have e : store_all ((r, v) :: post) (store_all pre m)
      = store_all post (__raw_writel v r (store_all pre m)) := by
    simp [store_all]
  rw [e, ← read32_raw_writel_same v r (store_all pre m)]
  apply read32_congr
  intro x hx1 hx2
  apply store_all_other
  intro rv hrv
  rcases h rv hrv with h1 | h1
  · right; omega
  · left; omega

/-! ## Facts about the register-write loop -/

theorem cal_reg_succ (flash : Mem) (p k : Nat) :
    cal_reg flash p (k + 1) = cal_reg flash (p + 6) k := by
  unfold cal_reg; congr 1; omega

theorem cal_lo_succ (flash : Mem) (p k : Nat) :
    cal_lo flash p (k + 1) = cal_lo flash (p + 6) k := by
  unfold cal_lo; congr 1; omega

theorem cal_hi_succ (flash : Mem) (p k : Nat) :
    cal_hi flash p (k + 1) = cal_hi flash (p + 6) k := by
  unfold cal_hi; congr 1; omega

theorem cal_writes_succ (flash : Mem) (p n : Nat) :
    cal_writes flash p (n + 1)
      = (read16 flash p, read16 flash (p + 2) ||| (read16 flash (p + 4) <<< 16))
        :: cal_writes flash (p + 6) n := by
  unfold cal_writes
  rw [List.range_succ_eq_map]
  simp only [List.map_cons, List.map_map, Function.comp_def, cal_reg_succ, cal_lo_succ,
    cal_hi_succ]
  simp [cal_reg, cal_lo, cal_hi]

/-- The high half shifted into place already fits in 32 bits. -/
theorem shift_high_mod (hi : Nat) (h : hi < 65536) : (hi <<< 16) % 2 ^ 32 = hi <<< 16 := by
  rw [Nat.shiftLeft_eq]
  apply Nat.mod_eq_of_lt
  norm_num
  omega

/-- The combined value `lo | hi << 16` of two 16-bit words fits in 32 bits. -/
theorem combined_lt (lo hi : Nat) (h1 : lo < 65536) (h2 : hi < 65536) :
    lo ||| (hi <<< 16) < 4294967296 := by
  have e : (4294967296 : Nat) = 2 ^ 32 := by norm_num
  rw [e]
  apply Nat.or_lt_two_pow
  · calc lo < 65536 := h1
      _ < 2 ^ 32 := by norm_num
  · rw [Nat.shiftLeft_eq]
    norm_num
    omega

theorem after_writes_cons (w : World) (r v : Nat) (ws : List (Nat × Nat)) :
    World.after_writes
      { w with mem := __raw_writel v r w.mem, log := w.log ++ [Event.raw_writel r v] } ws
      = w.after_writes ((r, v) :: ws) := by
  simp [World.after_writes, store_all]

/-- With the first register-position sentinel at triple `n` and more than `n`
iterations allowed, the loop ends after issuing exactly the first `n` writes. -/
theorem ath_pci_fixup.loop_run (n : Nat) : ∀ (fuel p : Nat) (w : World),
    (∀ k, k < n → cal_reg w.flash p k ≠ 0xffff) → cal_reg w.flash p n = 0xffff → n < fuel →
    ath_pci_fixup.loop fuel p w = some (w.after_writes (cal_writes w.flash p n)) := by
  induction n with
  | zero =>
    intro fuel p w _ hs hf
    obtain ⟨f, rfl⟩ : ∃ f, fuel = f + 1 := ⟨fuel - 1, by omega⟩
    have hs2 : read16 w.flash p = 0xffff := by simpa [cal_reg] using hs
    simp [ath_pci_fixup.loop, hs2, World.after_writes, cal_writes, store_all]
  | succ n ih =>
    intro fuel p w hne hs hf
    obtain ⟨f, rfl⟩ : ∃ f, fuel = f + 1 := ⟨fuel - 1, by omega⟩
    have h0 : read16 w.flash p ≠ 0xffff := by simpa [cal_reg] using hne 0 (by omega)
    have hne2 : ∀ k, k < n → cal_reg w.flash (p + 6) k ≠ 0xffff := by
      intro k hk
      rw [← cal_reg_succ]
      exact hne (k + 1) (by omega)
    have hs3 : cal_reg w.flash (p + 6) n = 0xffff := by
      rw [← cal_reg_succ]; exact hs
    rw [ath_pci_fixup.loop, if_pos h0]
    simp only [shift_high_mod _ (read16_lt w.flash (p + 4))]
    have step := ih f (p + 6)
      { w with
        mem := __raw_writel (read16 w.flash (p + 2) ||| read16 w.flash (p + 4) <<< 16)
          (read16 w.flash p) w.mem,
        log := w.log ++ [Event.raw_writel (read16 w.flash p)
          (read16 w.flash (p + 2) ||| read16 w.flash (p + 4) <<< 16)] }
      hne2 hs3 (by omega)
    rw [step, after_writes_cons, cal_writes_succ]

/-- While no register-position word within the budget is the sentinel, the loop does
not end. -/
theorem ath_pci_fixup.loop_starved (fuel : Nat) : ∀ (p : Nat) (w : World),
    (∀ k, k < fuel → cal_reg w.flash p k ≠ 0xffff) → ath_pci_fixup.loop fuel p w = none := by
  induction fuel with
  | zero => intro p w _; rfl
  | succ f ih =>
    intro p w hne
    have h0 : read16 w.flash p ≠ 0xffff := by simpa [cal_reg] using hne 0 (by omega)
    rw [ath_pci_fixup.loop, if_pos h0]
    apply ih
    intro k hk
    show cal_reg w.flash (p + 6) k ≠ 0xffff
    rw [← cal_reg_succ]
    exact hne (k + 1) (by omega)

theorem range_map_split (f : Nat → Nat × Nat) (k m : Nat) :
    (List.range (k + (m + 1))).map f
      = (List.range k).map f ++ f k :: (List.range m).map (fun j => f (k + 1 + j)) := by
  rw [List.range_add, List.range_succ_eq_map]
  simp [List.map_map, Function.comp_def, Nat.add_assoc, Nat.add_comm 1]

/-- C3: for every calibration block whose write list, after the 3-word header,
consists of `n` triples with a register word different from `0xffff` followed by the
word `0xffff`, the write loop of `ath_pci_fixup` ends after exactly `n` writes (with
any budget above `n`, and not with a budget of `n` or less), issuing in order the
32-bit write of `lo | (hi << 16)` at byte offset `reg` for each triple and nothing
else; the loop touches nothing but the window and the log; when the targeted offsets
do not overlap, the final word at each targeted offset is the value of the last
triple naming it, and every byte that no triple covers is unchanged. -/
theorem C3_write_loop_applies_list (w : World) (cal_data n : Nat)
    (hreg : ∀ k, k < n → cal_reg w.flash (cal_data + 2 * 3) k ≠ 0xffff)
    (hend : cal_reg w.flash (cal_data + 2 * 3) n = 0xffff) :
    ∃ w2 : World,
      (∀ fuel, n < fuel → ath_pci_fixup.loop fuel (cal_data + 2 * 3) w = some w2) ∧
      (∀ fuel, fuel ≤ n → ath_pci_fixup.loop fuel (cal_data + 2 * 3) w = none) ∧
      w2.log = w.log ++ (List.range n).map (fun k =>
        Event.raw_writel (cal_reg w.flash (cal_data + 2 * 3) k)
          (cal_lo w.flash (cal_data + 2 * 3) k ||| (cal_hi w.flash (cal_data + 2 * 3) k <<< 16))) ∧
      w2.config = w.config ∧ w2.dev = w.dev ∧ w2.wmac_data = w.wmac_data ∧
      w2.flash = w.flash ∧ w2.ar71xx_pci_fixup_enable = w.ar71xx_pci_fixup_enable ∧
      ((∀ i j, i < n → j < n →
          cal_reg w.flash (cal_data + 2 * 3) i ≠ cal_reg w.flash (cal_data + 2 * 3) j →
          cal_reg w.flash (cal_data + 2 * 3) i + 4 ≤ cal_reg w.flash (cal_data + 2 * 3) j ∨
          cal_reg w.flash (cal_data + 2 * 3) j + 4 ≤ cal_reg w.flash (cal_data + 2 * 3) i) →
        ∀ k, k < n →
          (∀ j, k < j → j < n →
            cal_reg w.flash (cal_data + 2 * 3) j ≠ cal_reg w.flash (cal_data + 2 * 3) k) →
          read32 w2.mem (cal_reg w.flash (cal_data + 2 * 3) k)
            = cal_lo w.flash (cal_data + 2 * 3) k
              ||| (cal_hi w.flash (cal_data + 2 * 3) k <<< 16)) ∧
      (∀ x, (∀ k, k < n → x < cal_reg w.flash (cal_data + 2 * 3) k ∨
          cal_reg w.flash (cal_data + 2 * 3) k + 4 ≤ x) → w2.mem x = w.mem x) := by
  refine ⟨w.after_writes (cal_writes w.flash (cal_data + 2 * 3) n), ?_, ?_, ?_, rfl, rfl, rfl,
    rfl, rfl, ?_, ?_⟩
  · intro fuel hf
    exact ath_pci_fixup.loop_run n fuel _ w hreg hend hf
  · intro fuel hf
    exact ath_pci_fixup.loop_starved fuel _ w (fun k hk => hreg k (by omega))
  · simp [World.after_writes, cal_writes, List.map_map, Function.comp_def]
  · intro hdisj k hk hlast
    obtain ⟨m, rfl⟩ : ∃ m, n = k + (m + 1) := ⟨n - k - 1, by omega⟩
    show read32 (store_all (cal_writes w.flash (cal_data + 2 * 3) (k + (m + 1))) w.mem) _ = _
    unfold cal_writes
    rw [range_map_split, read32_store_all_last]
    · exact Nat.mod_eq_of_lt (combined_lt _ _ (read16_lt _ _) (read16_lt _ _))
    · intro rv hrv
      obtain ⟨j, hj, rfl⟩ := List.mem_map.1 hrv
      have hj2 : j < m := List.mem_range.1 hj
      have hne := hlast (k + 1 + j) (by omega) (by omega)
      exact hdisj (k + 1 + j) k (by omega) (by omega) hne
  · intro x hx
    show store_all (cal_writes w.flash (cal_data + 2 * 3) n) w.mem x = w.mem x
    apply store_all_other
    intro rv hrv
    obtain ⟨j, hj, rfl⟩ := List.mem_map.1 hrv
    exact hx j (List.mem_range.1 hj)

/-! ## Facts about bit operations -/

theorem testBit_six (i : Nat) : Nat.testBit 6 i = (decide (i = 1) || decide (i = 2)) := by
  by_cases h : i < 3
  · interval_cases i <;> decide
  · have : (6 : Nat) < 2 ^ i := by
      calc (6 : Nat) < 2 ^ 3 := by norm_num
        _ ≤ 2 ^ i := Nat.pow_le_pow_right (by norm_num) (by omega)
    rw [Nat.testBit_lt_two_pow this]
    have h1 : i ≠ 1 := by omega
    have h2 : i ≠ 2 := by omega
    simp [h1, h2]

theorem testBit_not_six (i : Nat) :
    Nat.testBit (0xffffffff ^^^ 6) i
      = (decide (i < 32) && !(decide (i = 1) || decide (i = 2))) := by
  have e : (0xffffffff : Nat) = 2 ^ 32 - 1 := by norm_num
  rw [Nat.testBit_xor, e, Nat.testBit_two_pow_sub_one, testBit_six]
  by_cases h : i < 32 <;> by_cases h1 : i = 1 <;> by_cases h2 : i = 2 <;> simp [h, h1, h2]

theorem testBit_fff9 (i : Nat) :
    Nat.testBit 0xfff9 i = (decide (i < 16) && !(decide (i = 1) || decide (i = 2))) := by
  have e : (0xfff9 : Nat) = (2 ^ 16 - 1) ^^^ 6 := by decide
  rw [e, Nat.testBit_xor, Nat.testBit_two_pow_sub_one, testBit_six]
  by_cases h : i < 16 <;> by_cases h1 : i = 1 <;> by_cases h2 : i = 2 <;> simp [h, h1, h2]

/-- Setting the two enable bits keeps a 16-bit value 16-bit. -/
theorem or_six_lt (c : Nat) (h : c < 65536) : c ||| 6 < 65536 := by
  have e : (65536 : Nat) = 2 ^ 16 := by norm_num
  rw [e] at h ⊢
  exact Nat.or_lt_two_pow h (by norm_num)

/-- Setting and then clearing the two enable bits clears them. -/
theorem clear_after_set (c : Nat) :
    ((c ||| 6) &&& (0xffffffff ^^^ 6)) % 2 ^ 16 = cleared_command c := by
  unfold cleared_command
  apply Nat.eq_of_testBit_eq
  intro i
  rw [Nat.testBit_mod_two_pow, Nat.testBit_and, Nat.testBit_or, Nat.testBit_and,
    testBit_not_six, testBit_fff9, testBit_six]
  by_cases h : i < 16 <;> by_cases h1 : i = 1 <;> by_cases h2 : i = 2 <;> simp [h, h1, h2]
  omega

/-- Clearing the two enable bits changes nothing exactly when both were clear. -/
theorem cleared_command_eq_iff (c : Nat) (h : c < 65536) :
    cleared_command c = c ↔ c &&& 6 = 0 := by
  unfold cleared_command
  constructor
  · intro hc
    apply Nat.eq_of_testBit_eq
    intro i
    have hi := congrArg (fun x => Nat.testBit x i) hc
    simp only [Nat.testBit_and, testBit_fff9] at hi
    rw [Nat.testBit_and, testBit_six, Nat.zero_testBit]
    by_cases h1 : i = 1
    · subst h1; simp at hi ⊢; exact hi
    · by_cases h2 : i = 2
      · subst h2; simp at hi ⊢; exact hi
      · simp [h1, h2]
  · intro hc
    apply Nat.eq_of_testBit_eq
    intro i
    have hi := congrArg (fun x => Nat.testBit x i) hc
    simp only [Nat.testBit_and, testBit_six, Nat.zero_testBit] at hi
    rw [Nat.testBit_and, testBit_fff9]
    by_cases h16 : i < 16
    · by_cases h1 : i = 1
      · subst h1; simp at hi ⊢; exact hi
      · by_cases h2 : i = 2
        · subst h2; simp at hi ⊢; exact hi
        · simp [h1, h2, h16]
    · have : c < 2 ^ i := by
        calc c < 2 ^ 16 := by norm_num; exact h
          _ ≤ 2 ^ i := Nat.pow_le_pow_right (by norm_num) (by omega)
      simp [Nat.testBit_lt_two_pow this]

/-- A 32-bit value is its low half or-ed with its high half shifted back. -/
theorem split_halves (v : Nat) (h : v < 4294967296) :
    v = (v &&& 0xffff) ||| (((v >>> 16) &&& 0xffff) <<< 16) := by
  have e1 : (0xffff : Nat) = 2 ^ 16 - 1 := by norm_num
  rw [e1, Nat.and_pow_two_sub_one_eq_mod, Nat.and_pow_two_sub_one_eq_mod,
    Nat.shiftRight_eq_div_pow, Nat.shiftLeft_eq, Nat.lor_comm, Nat.mul_comm,
    ← Nat.mul_add_lt_is_or (Nat.mod_lt _ (by norm_num))]
  norm_num
  omega

/-- A value is its low byte or-ed with the remaining bytes shifted back. -/
theorem split_low_byte (v : Nat) : v = (v &&& 0xff) ||| ((v >>> 8) <<< 8) := by
  have e1 : (0xff : Nat) = 2 ^ 8 - 1 := by norm_num
  rw [e1, Nat.and_pow_two_sub_one_eq_mod, Nat.shiftRight_eq_div_pow, Nat.shiftLeft_eq,
    Nat.lor_comm, Nat.mul_comm, ← Nat.mul_add_lt_is_or (Nat.mod_lt _ (by norm_num))]
  norm_num
  omega

/-! ## Facts about the configuration space -/

theorem config_word_lt (cfg : Mem) (off : Nat) : config_word cfg off < 65536 := by
  have h1 := read8_lt cfg off
  have h2 := read8_lt cfg (off + 1)
  unfold config_word; omega

theorem config_dword_lt (cfg : Mem) (off : Nat) : config_dword cfg off < 4294967296 := by
  have h1 := config_word_lt cfg off
  have h2 := config_word_lt cfg (off + 2)
  unfold config_dword; omega

theorem config_word_set_word_same (cfg : Mem) (off v : Nat) :
    config_word (set_config_word cfg off v) off = v % 65536 := by
  have h1 : off + 1 ≠ off := by omega
  simp only [config_word, read8, set_config_word, h1, if_true, if_false]
  omega

theorem config_dword_set_dword_same (cfg : Mem) (off v : Nat) :
    config_dword (set_config_dword cfg off v) off = v % 4294967296 := by
  have h1 : off + 1 ≠ off := by omega
  have h2 : off + 2 ≠ off := by omega
  have h3 : off + 2 ≠ off + 1 := by omega
  have h4 : off + 2 + 1 ≠ off := by omega
  have h5 : off + 2 + 1 ≠ off + 1 := by omega
  have h6 : off + 2 + 1 ≠ off + 2 := by omega
  have h7 : off + 2 + 1 = off + 3 := by omega
  simp only [config_dword, config_word, read8, set_config_dword, h1, h2, h3, h4, h5, h6, h7,
    if_true, if_false]
  omega

theorem set_config_word_other (cfg : Mem) (off v x : Nat) (h : x < off ∨ off + 2 ≤ x) :
    set_config_word cfg off v x = cfg x := by
  have h1 : x ≠ off := by omega
  have h2 : x ≠ off + 1 := by omega
  simp only [set_config_word, h1, h2, if_false]

theorem set_config_dword_other (cfg : Mem) (off v x : Nat) (h : x < off ∨ off + 4 ≤ x) :
    set_config_dword cfg off v x = cfg x := by
  have h1 : x ≠ off := by omega
  have h2 : x ≠ off + 1 := by omega
  have h3 : x ≠ off + 2 := by omega
  have h4 : x ≠ off + 3 := by omega
  simp only [set_config_dword, h1, h2, h3, h4, if_false]

theorem config_word_congr (c1 c2 : Mem) (off : Nat)
    (h : ∀ x, off ≤ x → x < off + 2 → c1 x = c2 x) : config_word c1 off = config_word c2 off := by
  have e0 := h off (by omega) (by omega)
  have e1 := h (off + 1) (by omega) (by omega)
  simp only [config_word, read8, e0, e1]

theorem config_dword_congr (c1 c2 : Mem) (off : Nat)
    (h : ∀ x, off ≤ x → x < off + 4 → c1 x = c2 x) :
    config_dword c1 off = config_dword c2 off := by
  have e0 := h off (by omega) (by omega)
  have e1 := h (off + 1) (by omega) (by omega)
  have e2 := h (off + 2) (by omega) (by omega)
  have e3 := h (off + 2 + 1) (by omega) (by omega)
  simp only [config_dword, config_word, read8, e0, e1, e2, e3]

/-! ## Facts about ath_pci_fixup -/

/-- Every return before `ioremap` leaves the whole state as it was. -/
theorem ath_pci_fixup_early (P : Platform) (fuel : Nat) (ok : Bool) (w : World)
    (h : ath_pci_fixup.target P w = none) : ath_pci_fixup P fuel ok w = some w := by
  unfold ath_pci_fixup.target at h
  unfold ath_pci_fixup
  by_cases he : w.ar71xx_pci_fixup_enable = 0
  · rw [if_pos he]
  · rw [if_neg he] at h ⊢
    split at h
    · rename_i hs
      cases hc : getCalData P w.flash 0 with
      | none => rfl
      | some c => rw [hc] at h; simp at h
    · rename_i hs
      cases hc : getCalData P w.flash 1 with
      | none => rfl
      | some c => rw [hc] at h; simp at h
    · rfl

/-- Past the `switch`, the function continues with the published platform data. -/
theorem ath_pci_fixup_reached (P : Platform) (fuel : Nat) (ok : Bool) (w : World) (i c : Nat)
    (h : ath_pci_fixup.target P w = some (i, c)) :
    ath_pci_fixup P fuel ok w
      = ath_pci_fixup.apply P fuel ok c (ath_pci_fixup.publish P w i c) := by
  unfold ath_pci_fixup.target at h
  unfold ath_pci_fixup
  by_cases he : w.ar71xx_pci_fixup_enable = 0
  · rw [if_pos he] at h; simp at h
  · rw [if_neg he] at h ⊢
    split at h
    · rename_i hs
      cases hc : getCalData P w.flash 0 with
      | none => rw [hc] at h; simp at h
      | some c2 =>
        rw [hc] at h
        simp only [Option.map_some', Option.some.injEq, Prod.mk.injEq] at h
        obtain ⟨rfl, rfl⟩ := h
        rfl
    · rename_i hs
      cases hc : getCalData P w.flash 1 with
      | none => rw [hc] at h; simp at h
      | some c2 =>
        rw [hc] at h
        simp only [Option.map_some', Option.some.injEq, Prod.mk.injEq] at h
        obtain ⟨rfl, rfl⟩ := h
        rfl
    · simp at h

/-- With fixups enabled, the device in slot 0 or 1 and a calibration block found for
that slot, the `switch` selects that slot and block. -/
theorem ath_pci_fixup.target_of_cal (P : Platform) (w : World) (c : Nat)
    (he : w.ar71xx_pci_fixup_enable ≠ 0)
    (hs : P.PCI_SLOT w.dev.devfn = 0 ∨ P.PCI_SLOT w.dev.devfn = 1)
    (hc : getCalData P w.flash (P.PCI_SLOT w.dev.devfn : Nat) = some c) :
    ath_pci_fixup.target P w = some (P.PCI_SLOT w.dev.devfn, c) := by
  unfold ath_pci_fixup.target
  rw [if_neg he]
  rcases hs with hs | hs
  · rw [hs] at hc ⊢
    simp only [Nat.cast_zero] at hc
    simp [hc]
  · rw [hs] at hc ⊢
    simp only [Nat.cast_one] at hc
    simp [hc]

/-- No calibration block for the device's slot means the `switch` selects nothing. -/
theorem ath_pci_fixup.target_none_of_no_cal (P : Platform) (w : World)
    (h : getCalData P w.flash (P.PCI_SLOT w.dev.devfn : Nat) = none) :
    ath_pci_fixup.target P w = none := by
  unfold ath_pci_fixup.target
  by_cases he : w.ar71xx_pci_fixup_enable = 0
  · rw [if_pos he]
  · rw [if_neg he]
    split
    · rename_i hs
      rw [hs] at h
      simp only [Nat.cast_zero] at h
      rw [h]; rfl
    · rename_i hs
      rw [hs] at h
      simp only [Nat.cast_one] at h
      rw [h]; rfl
    · rfl

/-- The `switch` selects nothing exactly on the three early exits before `ioremap`. -/
theorem ath_pci_fixup.target_eq_none_iff (P : Platform) (w : World) :
    ath_pci_fixup.target P w = none ↔
      (w.ar71xx_pci_fixup_enable = 0 ∨
        (P.PCI_SLOT w.dev.devfn ≠ 0 ∧ P.PCI_SLOT w.dev.devfn ≠ 1) ∨
        getCalData P w.flash (P.PCI_SLOT w.dev.devfn : Nat) = none) := by
  constructor
  · intro h
    by_cases he : w.ar71xx_pci_fixup_enable = 0
    · exact Or.inl he
    · by_cases hs : P.PCI_SLOT w.dev.devfn = 0 ∨ P.PCI_SLOT w.dev.devfn = 1
      · right; right
        cases hc : getCalData P w.flash (P.PCI_SLOT w.dev.devfn : Nat) with
        | none => rfl
        | some c =>
          rw [ath_pci_fixup.target_of_cal P w c he hs hc] at h
          exact absurd h (by simp)
      · right; left
        exact ⟨fun h0 => hs (Or.inl h0), fun h1 => hs (Or.inr h1)⟩
  · intro h
    rcases h with he | ⟨h0, h1⟩ | hc
    · unfold ath_pci_fixup.target
      rw [if_pos he]
    · unfold ath_pci_fixup.target
      split
      · rfl
      · split
        · rename_i hs; exact absurd hs h0
        · rename_i hs; exact absurd hs h1
        · rfl
    · exact ath_pci_fixup.target_none_of_no_cal P w hc

/-- When `ioremap` fails the function returns right after the failed mapping. -/
theorem ath_pci_fixup.apply_unmapped (P : Platform) (fuel c : Nat) (w : World) :
    ath_pci_fixup.apply P fuel false c w = some (w.emit (.ioremap false)) := by
  simp [ath_pci_fixup.apply]

theorem config_word_command_set_bar0 (cfg : Mem) (v : Nat) :
    config_word (set_config_dword cfg PCI_BASE_ADDRESS_0 v) PCI_COMMAND
      = config_word cfg PCI_COMMAND := by
  apply config_word_congr
  intro x h1 h2
  apply set_config_dword_other
  unfold PCI_COMMAND at h2
  unfold PCI_BASE_ADDRESS_0
  omega

theorem config_dword_vendor_set_command (cfg : Mem) (v : Nat) :
    config_dword (set_config_word cfg PCI_COMMAND v) PCI_VENDOR_ID
      = config_dword cfg PCI_VENDOR_ID := by
  apply config_dword_congr
  intro x h1 h2
  apply set_config_word_other
  unfold PCI_VENDOR_ID at h2
  unfold PCI_COMMAND
  omega

theorem config_dword_vendor_set_bar0 (cfg : Mem) (v : Nat) :
    config_dword (set_config_dword cfg PCI_BASE_ADDRESS_0 v) PCI_VENDOR_ID
      = config_dword cfg PCI_VENDOR_ID := by
  apply config_dword_congr
  intro x h1 h2
  apply set_config_dword_other
  unfold PCI_VENDOR_ID at h2
  unfold PCI_BASE_ADDRESS_0
  omega

theorem config_dword_class_set_command (cfg : Mem) (v : Nat) :
    config_dword (set_config_word cfg PCI_COMMAND v) PCI_CLASS_REVISION
      = config_dword cfg PCI_CLASS_REVISION := by
  apply config_dword_congr
  intro x h1 h2
  apply set_config_word_other
  unfold PCI_CLASS_REVISION at h1
  unfold PCI_COMMAND
  omega

theorem config_dword_class_set_bar0 (cfg : Mem) (v : Nat) :
    config_dword (set_config_dword cfg PCI_BASE_ADDRESS_0 v) PCI_CLASS_REVISION
      = config_dword cfg PCI_CLASS_REVISION := by
  apply config_dword_congr
  intro x h1 h2
  apply set_config_dword_other
  unfold PCI_CLASS_REVISION at h2
  unfold PCI_BASE_ADDRESS_0
  omega

theorem command_enable_bits : PCI_COMMAND_MASTER ||| PCI_COMMAND_MEMORY = 6 := by decide

/-- The command value written before the loop reads back unchanged. -/
theorem config_word_command_enabled (cfg : Mem) (cmd : Nat) (h : cmd < 65536) :
    config_word (set_config_word cfg PCI_COMMAND (cmd ||| 6)) PCI_COMMAND = cmd ||| 6 := by
  rw [config_word_set_word_same]
  exact Nat.mod_eq_of_lt (or_six_lt cmd h)

/-- The success path of `ath_pci_fixup.apply`: with the first register-position
sentinel at triple `n` and more than `n` iterations allowed, the function returns
`ath_pci_fixup.outcome`. -/
theorem ath_pci_fixup.apply_mapped (P : Platform) (fuel c n : Nat) (w : World)
    (hreg : ∀ k, k < n → cal_reg w.flash (c + 2 * 3) k ≠ 0xffff)
    (hend : cal_reg w.flash (c + 2 * 3) n = 0xffff) (hf : n < fuel) :
    ath_pci_fixup.apply P fuel true c w = some (ath_pci_fixup.outcome P c n w) := by
  unfold ath_pci_fixup.apply
  simp only [Bool.not_true, Bool.false_eq_true, if_false, pci_read_config_dword,
    pci_read_config_word, pci_write_config_dword, pci_write_config_word, World.emit]
  rw [ath_pci_fixup.loop_run n fuel _ _ ?_ ?_ hf]
  · simp only [World.after_writes, ath_pci_fixup.outcome, command_enable_bits,
      config_word_command_set_bar0, config_dword_vendor_set_command,
      config_dword_vendor_set_bar0, config_dword_class_set_command,
      config_dword_class_set_bar0,
      config_word_command_enabled _ _ (config_word_lt w.config PCI_COMMAND), clear_after_set,
      List.append_assoc, List.cons_append, List.nil_append]
  · exact hreg
  · exact hend

/-- Without a register-position sentinel within the budget the success path does not
return. -/
theorem ath_pci_fixup.apply_starved (P : Platform) (fuel c : Nat) (w : World)
    (hreg : ∀ k, k < fuel → cal_reg w.flash (c + 2 * 3) k ≠ 0xffff) :
    ath_pci_fixup.apply P fuel true c w = none := by
  unfold ath_pci_fixup.apply
  simp only [Bool.not_true, Bool.false_eq_true, if_false, pci_read_config_dword,
    pci_read_config_word, pci_write_config_dword, pci_write_config_word, World.emit]
  rw [ath_pci_fixup.loop_starved fuel _ _ ?_]
  exact hreg

/-- Whenever the success path returns, it returns the closed form for the first
register-position sentinel, found within the budget. -/
theorem ath_pci_fixup.apply_mapped_inv (P : Platform) (fuel c : Nat) (w w2 : World)
    (h : ath_pci_fixup.apply P fuel true c w = some w2) :
    ∃ n, n < fuel ∧ (∀ k, k < n → cal_reg w.flash (c + 2 * 3) k ≠ 0xffff) ∧
      cal_reg w.flash (c + 2 * 3) n = 0xffff ∧ w2 = ath_pci_fixup.outcome P c n w := by
  by_cases hex : ∃ k, k < fuel ∧ cal_reg w.flash (c + 2 * 3) k = 0xffff
  · have hn := Nat.find_spec hex
    have hmin : ∀ k, k < Nat.find hex → cal_reg w.flash (c + 2 * 3) k ≠ 0xffff := by
      intro k hk hk2
      exact Nat.find_min hex hk ⟨by omega, hk2⟩
    refine ⟨Nat.find hex, hn.1, hmin, hn.2, ?_⟩
    rw [ath_pci_fixup.apply_mapped P fuel c (Nat.find hex) w hmin hn.2 hn.1] at h
    exact (Option.some.inj h).symm
  · have hno : ∀ k, k < fuel → cal_reg w.flash (c + 2 * 3) k ≠ 0xffff := by
      intro k hk hk2
      exact hex ⟨k, hk, hk2⟩
    rw [ath_pci_fixup.apply_starved P fuel c w hno] at h
    exact absurd h (by simp)

/-- BAR0 after the success path holds what it held before. -/
theorem ath_pci_fixup.outcome_bar0 (P : Platform) (c n : Nat) (w : World) :
    config_dword (ath_pci_fixup.outcome P c n w).config PCI_BASE_ADDRESS_0
      = config_dword w.config PCI_BASE_ADDRESS_0 := by
  show config_dword (set_config_dword _ PCI_BASE_ADDRESS_0 _) PCI_BASE_ADDRESS_0 = _
  rw [config_dword_set_dword_same]
  exact Nat.mod_eq_of_lt (config_dword_lt _ _)

/-- The command register after the success path holds what it held before with the
bus-master and memory-space bits cleared. -/
theorem ath_pci_fixup.outcome_command (P : Platform) (c n : Nat) (w : World) :
    config_word (ath_pci_fixup.outcome P c n w).config PCI_COMMAND
      = cleared_command (config_word w.config PCI_COMMAND) := by
  show config_word (set_config_dword (set_config_word _ PCI_COMMAND _) PCI_BASE_ADDRESS_0 _)
    PCI_COMMAND = _
  rw [config_word_command_set_bar0, config_word_set_word_same]
  apply Nat.mod_eq_of_lt
  unfold cleared_command
  have e : (65536 : Nat) = 2 ^ 16 := by norm_num
  rw [e]
  exact Nat.and_lt_two_pow _ (by norm_num)

/-- The identification registers are not touched by the success path. -/
theorem ath_pci_fixup.outcome_ids (P : Platform) (c n : Nat) (w : World) :
    config_dword (ath_pci_fixup.outcome P c n w).config PCI_VENDOR_ID
        = config_dword w.config PCI_VENDOR_ID ∧
      config_dword (ath_pci_fixup.outcome P c n w).config PCI_CLASS_REVISION
        = config_dword w.config PCI_CLASS_REVISION := by
  constructor
  · show config_dword (set_config_dword (set_config_word (set_config_word
      (set_config_dword _ PCI_BASE_ADDRESS_0 _) PCI_COMMAND _) PCI_COMMAND _)
      PCI_BASE_ADDRESS_0 _) PCI_VENDOR_ID = _
    rw [config_dword_vendor_set_bar0, config_dword_vendor_set_command,
      config_dword_vendor_set_command, config_dword_vendor_set_bar0]
  · show config_dword (set_config_dword (set_config_word (set_config_word
      (set_config_dword _ PCI_BASE_ADDRESS_0 _) PCI_COMMAND _) PCI_COMMAND _)
      PCI_BASE_ADDRESS_0 _) PCI_CLASS_REVISION = _
    rw [config_dword_class_set_bar0, config_dword_class_set_command,
      config_dword_class_set_command, config_dword_class_set_bar0]

/-- C4 (amended): after `ath_pci_fixup` returns, BAR0 equals its value before the call
on every path; the command register equals its value before the call on every
early-exit path (fixups disabled, slot other than 0 and 1, no calibration data,
mapping failure), and on the success path it equals its value before the call with
`PCI_COMMAND_MASTER` and `PCI_COMMAND_MEMORY` cleared, so it is restored whenever
both bits were clear before the call. The function returns on every early-exit path,
and on the success path whenever a register-position sentinel lies within the
budget. -/
theorem C4_bar0_restored_command_cleared (P : Platform) (ok : Bool) (w : World) :
    (∀ fuel w2, ath_pci_fixup P fuel ok w = some w2 →
      config_dword w2.config PCI_BASE_ADDRESS_0 = config_dword w.config PCI_BASE_ADDRESS_0 ∧
      (w.ar71xx_pci_fixup_enable = 0 ∨
          (P.PCI_SLOT w.dev.devfn ≠ 0 ∧ P.PCI_SLOT w.dev.devfn ≠ 1) ∨
          getCalData P w.flash (P.PCI_SLOT w.dev.devfn : Nat) = none ∨ ok = false →
        config_word w2.config PCI_COMMAND = config_word w.config PCI_COMMAND) ∧
      (w.ar71xx_pci_fixup_enable ≠ 0 →
          (P.PCI_SLOT w.dev.devfn = 0 ∨ P.PCI_SLOT w.dev.devfn = 1) →
          getCalData P w.flash (P.PCI_SLOT w.dev.devfn : Nat) ≠ none → ok = true →
        config_word w2.config PCI_COMMAND
          = cleared_command (config_word w.config PCI_COMMAND)) ∧
      (config_word w.config PCI_COMMAND &&& 6 = 0 →
        config_word w2.config PCI_COMMAND = config_word w.config PCI_COMMAND)) ∧
    (w.ar71xx_pci_fixup_enable = 0 ∨
        (P.PCI_SLOT w.dev.devfn ≠ 0 ∧ P.PCI_SLOT w.dev.devfn ≠ 1) ∨
        getCalData P w.flash (P.PCI_SLOT w.dev.devfn : Nat) = none ∨ ok = false →
      ∀ fuel, ∃ w2, ath_pci_fixup P fuel ok w = some w2) ∧
    (∀ c n, w.ar71xx_pci_fixup_enable ≠ 0 →
      (P.PCI_SLOT w.dev.devfn = 0 ∨ P.PCI_SLOT w.dev.devfn = 1) →
      getCalData P w.flash (P.PCI_SLOT w.dev.devfn : Nat) = some c →
      cal_reg w.flash (c + 2 * 3) n = 0xffff →
      ∀ fuel, n < fuel → ∃ w2, ath_pci_fixup P fuel ok w = some w2) := by
  have key : ∀ fuel w2, ath_pci_fixup P fuel ok w = some w2 →
      config_dword w2.config PCI_BASE_ADDRESS_0 = config_dword w.config PCI_BASE_ADDRESS_0 ∧
      config_word w2.config PCI_COMMAND
        = (if (ath_pci_fixup.target P w).isSome ∧ ok = true
           then cleared_command (config_word w.config PCI_COMMAND)
           else config_word w.config PCI_COMMAND) := by
    intro fuel w2 h
    cases ht : ath_pci_fixup.target P w with
    | none =>
      rw [ath_pci_fixup_early P fuel ok w ht] at h
      cases Option.some.inj h
      simp
    | some ic =>
      obtain ⟨i, c⟩ := ic
      rw [ath_pci_fixup_reached P fuel ok w i c ht] at h
      cases ok with
      | false =>
        rw [ath_pci_fixup.apply_unmapped] at h
        cases Option.some.inj h
        simp [World.emit, ath_pci_fixup.publish]
      | true =>
        obtain ⟨n, _, _, _, rfl⟩ := ath_pci_fixup.apply_mapped_inv P fuel c _ w2 h
        rw [ath_pci_fixup.outcome_bar0, ath_pci_fixup.outcome_command]
        simp [ath_pci_fixup.publish]
  have early : (w.ar71xx_pci_fixup_enable = 0 ∨
        (P.PCI_SLOT w.dev.devfn ≠ 0 ∧ P.PCI_SLOT w.dev.devfn ≠ 1) ∨
        getCalData P w.flash (P.PCI_SLOT w.dev.devfn : Nat) = none ∨ ok = false) →
      ath_pci_fixup.target P w = none ∨ ok = false := by
    intro h
    rcases h with h | h | h | h
    · exact Or.inl ((ath_pci_fixup.target_eq_none_iff P w).2 (Or.inl h))
    · exact Or.inl ((ath_pci_fixup.target_eq_none_iff P w).2 (Or.inr (Or.inl h)))
    · exact Or.inl ((ath_pci_fixup.target_eq_none_iff P w).2 (Or.inr (Or.inr h)))
    · exact Or.inr h
  refine ⟨fun fuel w2 h => ⟨(key fuel w2 h).1, fun hexit => ?_, fun he hs hc hok => ?_,
    fun hclear => ?_⟩, ?_, ?_⟩
  · rw [(key fuel w2 h).2]
    rcases early hexit with h1 | h1
    · rw [h1]; simp
    · rw [h1]; simp
  · rw [(key fuel w2 h).2]
    obtain ⟨c, hc2⟩ := Option.ne_none_iff_exists'.1 hc
    rw [ath_pci_fixup.target_of_cal P w c he hs hc2, hok]
    simp
  · rw [(key fuel w2 h).2]
    split
    · exact (cleared_command_eq_iff _ (config_word_lt _ _)).2 hclear
    · rfl
  · intro hexit fuel
    cases ht : ath_pci_fixup.target P w with
    | none => exact ⟨w, ath_pci_fixup_early P fuel ok w ht⟩
    | some ic =>
      obtain ⟨i, c⟩ := ic
      rcases early hexit with h1 | h1
      · rw [ht] at h1; exact absurd h1 (by simp)
      · subst h1
        rw [ath_pci_fixup_reached P fuel false w i c ht, ath_pci_fixup.apply_unmapped]
        exact ⟨_, rfl⟩
  · intro c n he hs hc hend fuel hf
    rw [ath_pci_fixup_reached P fuel ok w _ c (ath_pci_fixup.target_of_cal P w c he hs hc)]
    cases ok with
    | false =>
      rw [ath_pci_fixup.apply_unmapped]
      exact ⟨_, rfl⟩
    | true =>
      have hex : ∃ k, cal_reg w.flash (c + 2 * 3) k = 0xffff := ⟨n, hend⟩
      have hle : Nat.find hex ≤ n := Nat.find_min' hex hend
      have hmin : ∀ k, k < Nat.find hex →
          cal_reg (ath_pci_fixup.publish P w (P.PCI_SLOT w.dev.devfn) c).flash (c + 2 * 3) k
            ≠ 0xffff :=
        fun k hk => Nat.find_min hex hk
      exact ⟨_, ath_pci_fixup.apply_mapped P fuel c (Nat.find hex) _ hmin (Nat.find_spec hex)
        (by omega)⟩

/-! ## Facts about the concrete inputs -/

theorem sample_flash_first_hit :
    scan_hit ar71xx sample_flash 0 ∧ ∀ j, j < 0 → ¬ scan_hit ar71xx sample_flash j :=
  ⟨by decide, fun j hj => absurd hj (Nat.not_lt_zero j)⟩

theorem getCalData_sample_flash : getCalData ar71xx sample_flash 0 = some 0xbf000000 := by
  have h := getCalData_of_first_hit ar71xx sample_flash 0 0 sample_flash_first_hit.1
    sample_flash_first_hit.2
  simpa [scan_block, ar71xx, STARTSCAN] using h

theorem target_sample_world (config : Mem) :
    ath_pci_fixup.target ar71xx (sample_world sample_flash config 0) = some (0, 0xbf000000) := by
  have h : ar71xx.PCI_SLOT 0 = 0 := by decide
  simp [ath_pci_fixup.target, sample_world, h, getCalData_sample_flash]

theorem sample_world_cal (config : Mem) :
    (sample_world sample_flash config 0).ar71xx_pci_fixup_enable ≠ 0 ∧
    ar71xx.PCI_SLOT (sample_world sample_flash config 0).dev.devfn = 0 ∧
    getCalData ar71xx (sample_world sample_flash config 0).flash
      (ar71xx.PCI_SLOT (sample_world sample_flash config 0).dev.devfn : Nat) = some 0xbf000000 := by
  have h : ar71xx.PCI_SLOT (sample_world sample_flash config 0).dev.devfn = 0 :=
    show ar71xx.PCI_SLOT 0 = 0 by decide
  refine ⟨by simp [sample_world], h, ?_⟩
  rw [h]
  exact getCalData_sample_flash

theorem sample_flash_triples :
    (∀ k, k < 2 → cal_reg sample_flash (0xbf000000 + 2 * 3) k ≠ 0xffff) ∧
      cal_reg sample_flash (0xbf000000 + 2 * 3) 2 = 0xffff := by
  decide

theorem sample_flash_writes :
    cal_writes sample_flash (0xbf000000 + 2 * 3) 2 = [(0x10, 0x56781234), (0x20, 0x1ffff)] := by
  decide

/-- C5 (amended): when `ioremap` fails, `ath_pci_fixup` returns without touching the
device: the configuration space and the register window are as before, the only
logged event is the failed mapping (no configuration access, no register write), and
the descriptor keeps its bus number, devfn, vendor, device, class and revision. The
platform data published before the mapping attempt stays: `platform_data` points to
`wmac_data[slot]`, whose `eeprom_data` holds the copy of the calibration block, and
the entries of `wmac_data` for other indices are unchanged. -/
theorem C5_ioremap_failure_keeps_device (P : Platform) (fuel : Nat) (w : World) (i c : Nat)
    (he : w.ar71xx_pci_fixup_enable ≠ 0) (hslot : P.PCI_SLOT w.dev.devfn = i)
    (hi : i = 0 ∨ i = 1) (hc : getCalData P w.flash (i : Nat) = some c) :
    ∃ w2, ath_pci_fixup P fuel false w = some w2 ∧
      w2.config = w.config ∧ w2.mem = w.mem ∧ w2.log = w.log ++ [Event.ioremap false] ∧
      w2.ar71xx_pci_fixup_enable = w.ar71xx_pci_fixup_enable ∧
      w2.dev.bus_number = w.dev.bus_number ∧ w2.dev.devfn = w.dev.devfn ∧
      w2.dev.vendor = w.dev.vendor ∧ w2.dev.device = w.dev.device ∧
      w2.dev.class_ = w.dev.class_ ∧ w2.dev.revision = w.dev.revision ∧
      w2.dev.platform_data = platform_ptr.wmac_data i ∧
      (w2.wmac_data i).eeprom_data
        = (List.range P.ATH9K_PLAT_EEP_MAX_WORDS).map (fun j => read16 w.flash (c + 2 * j)) ∧
      (∀ j, j ≠ i → w2.wmac_data j = w.wmac_data j) := by
  subst hslot
  have h := ath_pci_fixup.target_of_cal P w c he hi hc
  refine ⟨(ath_pci_fixup.publish P w (P.PCI_SLOT w.dev.devfn) c).emit (.ioremap false), ?_,
    rfl, rfl, rfl, rfl, rfl, rfl, rfl, rfl, rfl, rfl, rfl, ?_, ?_⟩
  · rw [ath_pci_fixup_reached P fuel false w _ c h, ath_pci_fixup.apply_unmapped]
  · simp [World.emit, ath_pci_fixup.publish]
  · intro j hj
    simp [World.emit, ath_pci_fixup.publish, Function.update, hj]

/-- Witness of C5 (amended): the sample device with a failing `ioremap`. -/
theorem C5_ioremap_failure_keeps_device_witness :
    ∃ w2, ath_pci_fixup ar71xx 3 false (sample_world sample_flash (sample_config 0) 0) = some w2 ∧
      w2.config = sample_config 0 ∧ w2.log = [Event.ioremap false] ∧
      w2.dev.platform_data = platform_ptr.wmac_data 0 := by
  obtain ⟨w2, h1, h2, _, h3, _, _, _, _, _, _, _, h4, _⟩ :=
    C5_ioremap_failure_keeps_device ar71xx 3 (sample_world sample_flash (sample_config 0) 0)
      0 0xbf000000 (sample_world_cal _).1 (sample_world_cal _).2.1 (Or.inl rfl)
      getCalData_sample_flash
  exact ⟨w2, h1, h2, h3, h4⟩

/-- C5 as stated fails: with calibration data present and `ioremap` failing, the
descriptor's `platform_data` changes from its old value to `&wmac_data[0]` and
`wmac_data[0].eeprom_data` changes from empty to the 2048 copied words. -/
theorem C5_counterexample :
    ∃ w2, ath_pci_fixup ar71xx 3 false (sample_world sample_flash (sample_config 0) 0) = some w2 ∧
      (sample_world sample_flash (sample_config 0) 0).dev.platform_data = platform_ptr.other 0 ∧
      w2.dev.platform_data = platform_ptr.wmac_data 0 ∧
      ((sample_world sample_flash (sample_config 0) 0).wmac_data 0).eeprom_data.length = 0 ∧
      (w2.wmac_data 0).eeprom_data.length = 2048 := by
  refine ⟨(ath_pci_fixup.publish ar71xx (sample_world sample_flash (sample_config 0) 0) 0
    0xbf000000).emit (.ioremap false), ?_, rfl, rfl, rfl, ?_⟩
  · rw [ath_pci_fixup_reached ar71xx 3 false _ 0 0xbf000000 (target_sample_world _),
      ath_pci_fixup.apply_unmapped]
  · simp [World.emit, ath_pci_fixup.publish, ar71xx]

/-- C6: when `getCalData` finds no calibration block for the device's slot,
`ath_pci_fixup` returns with the state exactly as before: nothing is logged (no
mapping, no configuration access, no register write), and the configuration space,
the register window, the device descriptor (vendor, device, class, revision,
platform_data) and `wmac_data` are unchanged. -/
theorem C6_no_calibration_no_fixup (P : Platform) (fuel : Nat) (ok : Bool) (w : World)
    (h : getCalData P w.flash (P.PCI_SLOT w.dev.devfn : Nat) = none) :
    ∃ w2, ath_pci_fixup P fuel ok w = some w2 ∧ w2.log = w.log ∧ w2.config = w.config ∧
      w2.mem = w.mem ∧ w2.dev = w.dev ∧ w2.wmac_data = w.wmac_data :=
  ⟨w, ath_pci_fixup_early P fuel ok w (ath_pci_fixup.target_none_of_no_cal P w h),
    rfl, rfl, rfl, rfl, rfl⟩

/-- A flash without any magic word yields no calibration block. -/
theorem getCalData_blank (P : Platform) (slot : Int) : getCalData P (fun _ => 0) slot = none := by
  apply getCalData_of_no_hit
  intro k hk
  have := hk.2
  revert this
  simp [read32, read16, read8, isCalMagic]

/-- Witness of C6: the sample device in front of a blank flash. -/
theorem C6_no_calibration_no_fixup_witness :
    ∃ w2, ath_pci_fixup ar71xx 3 true (sample_world (fun _ => 0) (sample_config 0) 0) = some w2 ∧
      w2.log = [] ∧ w2.config = sample_config 0 ∧
      w2.mem = (sample_world (fun _ => 0) (sample_config 0) 0).mem ∧
      w2.dev = (sample_world (fun _ => 0) (sample_config 0) 0).dev ∧
      w2.wmac_data = (sample_world (fun _ => 0) (sample_config 0) 0).wmac_data :=
  C6_no_calibration_no_fixup ar71xx 3 true (sample_world (fun _ => 0) (sample_config 0) 0)
    (getCalData_blank ar71xx _)

/-- C8: on the success path of `ath_pci_fixup` (calibration data found, mapping
obtained, write list ended by a register-position sentinel within the budget), with
`v` the 32-bit value of configuration offset `PCI_VENDOR_ID` and `c` that of
`PCI_CLASS_REVISION`, both read after the register writes, the descriptor ends with
`vendor = v & 0xffff`, `device = (v >> 16) & 0xffff`, `revision = c & 0xff` and
`class = c >> 8`, so that `v = vendor | (device << 16)` and
`c = revision | (class << 8)`. -/
theorem C8_identity_refreshed (P : Platform) (fuel : Nat) (w : World) (cal n : Nat)
    (he : w.ar71xx_pci_fixup_enable ≠ 0)
    (hslot : P.PCI_SLOT w.dev.devfn = 0 ∨ P.PCI_SLOT w.dev.devfn = 1)
    (hcal : getCalData P w.flash (P.PCI_SLOT w.dev.devfn : Nat) = some cal)
    (hreg : ∀ k, k < n → cal_reg w.flash (cal + 2 * 3) k ≠ 0xffff)
    (hend : cal_reg w.flash (cal + 2 * 3) n = 0xffff) (hf : n < fuel) :
    ∃ w2 v c, ath_pci_fixup P fuel true w = some w2 ∧
      v = config_dword w2.config PCI_VENDOR_ID ∧ c = config_dword w2.config PCI_CLASS_REVISION ∧
      v = config_dword w.config PCI_VENDOR_ID ∧ c = config_dword w.config PCI_CLASS_REVISION ∧
      (∃ pre, w2.log = pre ++
        [Event.config_read PCI_VENDOR_ID 4, Event.config_read PCI_CLASS_REVISION 4,
         Event.config_read PCI_COMMAND 2,
         Event.config_write PCI_COMMAND 2 (cleared_command (config_word w.config PCI_COMMAND)),
         Event.config_write PCI_BASE_ADDRESS_0 4 (config_dword w.config PCI_BASE_ADDRESS_0),
         Event.iounmap]) ∧
      w2.dev.vendor = v &&& 0xffff ∧ w2.dev.device = (v >>> 16) &&& 0xffff ∧
      w2.dev.revision = c &&& 0xff ∧ w2.dev.class_ = c >>> 8 ∧
      v = w2.dev.vendor ||| (w2.dev.device <<< 16) ∧
      c = w2.dev.revision ||| (w2.dev.class_ <<< 8) := by
  have ht := ath_pci_fixup.target_of_cal P w cal he hslot hcal
  have hids := ath_pci_fixup.outcome_ids P cal n
    (ath_pci_fixup.publish P w (P.PCI_SLOT w.dev.devfn) cal)
  refine ⟨ath_pci_fixup.outcome P cal n
      (ath_pci_fixup.publish P w (P.PCI_SLOT w.dev.devfn) cal),
    config_dword w.config PCI_VENDOR_ID, config_dword w.config PCI_CLASS_REVISION,
    ?_, hids.1.symm, hids.2.symm, rfl, rfl, ?_, rfl, rfl, rfl, rfl, ?_, ?_⟩
  · rw [ath_pci_fixup_reached P fuel true w _ cal ht]
    exact ath_pci_fixup.apply_mapped P fuel cal n _ hreg hend hf
  · refine ⟨w.log ++ ([Event.ioremap true, Event.config_read PCI_BASE_ADDRESS_0 4,
      Event.config_write PCI_BASE_ADDRESS_0 4 P.AR71XX_PCI_MEM_BASE,
      Event.config_read PCI_COMMAND 2,
      Event.config_write PCI_COMMAND 2 (config_word w.config PCI_COMMAND ||| 6)]
      ++ ((cal_writes w.flash (cal + 2 * 3) n).map fun rv => Event.raw_writel rv.1 rv.2)), ?_⟩
    simp [ath_pci_fixup.outcome, ath_pci_fixup.publish]
  · exact split_halves _ (config_dword_lt _ _)
  · exact split_low_byte _

/-- Witness of C3: the sample block, whose write list has two triples. -/
theorem C3_write_loop_applies_list_witness :
    ∃ w2 : World,
      ath_pci_fixup.loop 3 (0xbf000000 + 2 * 3)
        (sample_world sample_flash (sample_config 0) 0) = some w2 ∧
      ath_pci_fixup.loop 2 (0xbf000000 + 2 * 3)
        (sample_world sample_flash (sample_config 0) 0) = none ∧
      w2.log = [Event.raw_writel 0x10 0x56781234, Event.raw_writel 0x20 0x1ffff] ∧
      read32 w2.mem 0x10 = 0x56781234 ∧ read32 w2.mem 0x20 = 0x1ffff ∧ w2.mem 0x14 = 0 := by
  obtain ⟨w2, hrun, hnot, hlog, _, _, _, _, _, hlast, hframe⟩ :=
    C3_write_loop_applies_list (sample_world sample_flash (sample_config 0) 0) 0xbf000000 2
      sample_flash_triples.1 sample_flash_triples.2
  have hdisj : ∀ i j, i < 2 → j < 2 →
      cal_reg (sample_world sample_flash (sample_config 0) 0).flash (0xbf000000 + 2 * 3) i
        ≠ cal_reg (sample_world sample_flash (sample_config 0) 0).flash (0xbf000000 + 2 * 3) j →
      cal_reg (sample_world sample_flash (sample_config 0) 0).flash (0xbf000000 + 2 * 3) i + 4
        ≤ cal_reg (sample_world sample_flash (sample_config 0) 0).flash (0xbf000000 + 2 * 3) j ∨
      cal_reg (sample_world sample_flash (sample_config 0) 0).flash (0xbf000000 + 2 * 3) j + 4
        ≤ cal_reg (sample_world sample_flash (sample_config 0) 0).flash (0xbf000000 + 2 * 3) i := by
    intro i j hi hj
    interval_cases i <;> interval_cases j <;> decide
  refine ⟨w2, hrun 3 (by decide), hnot 2 (by decide), ?_, ?_, ?_, ?_⟩
  · rw [hlog]; decide
  · have := hlast hdisj 0 (by decide) (fun j h1 h2 => by
      obtain rfl : j = 1 := by omega
      decide)
    have e1 : cal_reg (sample_world sample_flash (sample_config 0) 0).flash
        (0xbf000000 + 2 * 3) 0 = 0x10 := by decide
    have e2 : cal_lo (sample_world sample_flash (sample_config 0) 0).flash
        (0xbf000000 + 2 * 3) 0 ||| (cal_hi (sample_world sample_flash (sample_config 0) 0).flash
        (0xbf000000 + 2 * 3) 0 <<< 16) = 0x56781234 := by decide
    rw [e1, e2] at this
    exact this
  · have := hlast hdisj 1 (by decide) (fun j h1 h2 => by omega)
    have e1 : cal_reg (sample_world sample_flash (sample_config 0) 0).flash
        (0xbf000000 + 2 * 3) 1 = 0x20 := by decide
    have e2 : cal_lo (sample_world sample_flash (sample_config 0) 0).flash
        (0xbf000000 + 2 * 3) 1 ||| (cal_hi (sample_world sample_flash (sample_config 0) 0).flash
        (0xbf000000 + 2 * 3) 1 <<< 16) = 0x1ffff := by decide
    rw [e1, e2] at this
    exact this
  · exact hframe 0x14 (by decide)

/-- Witness of C4 (amended): the sample device with both enable bits clear before the
call gets BAR0 and the command register back. -/
theorem C4_bar0_restored_command_cleared_witness :
    ∃ w2, ath_pci_fixup ar71xx 3 true (sample_world sample_flash (sample_config 0) 0) = some w2 ∧
      config_dword w2.config PCI_BASE_ADDRESS_0 = 0xc000 ∧
      config_word w2.config PCI_COMMAND = 0 := by
  obtain ⟨w2, h⟩ :=
    (C4_bar0_restored_command_cleared ar71xx true
      (sample_world sample_flash (sample_config 0) 0)).2.2 0xbf000000 2
      (sample_world_cal _).1 (Or.inl (sample_world_cal _).2.1) (sample_world_cal _).2.2
      sample_flash_triples.2 3 (by decide)
  have hp := (C4_bar0_restored_command_cleared ar71xx true
      (sample_world sample_flash (sample_config 0) 0)).1 3 w2 h
  refine ⟨w2, h, ?_, ?_⟩
  · rw [hp.1]; decide
  · rw [hp.2.2.2 (by decide)]; decide

/-- C4 as stated fails on the success path: a device whose command register holds
`0x0006` (memory space and bus master enabled) before the call has `0x0000` in it
after the call. -/
theorem C4_counterexample :
    ∃ w2, ath_pci_fixup ar71xx 3 true (sample_world sample_flash (sample_config 6) 0) = some w2 ∧
      config_word (sample_world sample_flash (sample_config 6) 0).config PCI_COMMAND = 6 ∧
      config_word w2.config PCI_COMMAND = 0 := by
  refine ⟨ath_pci_fixup.outcome ar71xx 0xbf000000 2
    (ath_pci_fixup.publish ar71xx (sample_world sample_flash (sample_config 6) 0) 0 0xbf000000),
    ?_, by decide, ?_⟩
  · rw [ath_pci_fixup_reached ar71xx 3 true _ 0 0xbf000000 (target_sample_world _)]
    exact ath_pci_fixup.apply_mapped ar71xx 3 0xbf000000 2 _ sample_flash_triples.1
      sample_flash_triples.2 (by decide)
  · rw [ath_pci_fixup.outcome_command]
    decide

/-- C7 (amended): the register-write list processed by `ath_pci_fixup` ends at the
first register-position word (word `3 + 3k` of the block) equal to `0xffff`: the
triples applied are exactly those before it, whatever their value-low and value-high
words are, and the loop needs one iteration more than their number; when no
register-position word equals `0xffff` the loop does not end. -/
theorem C7_list_ends_at_register_sentinel (w : World) (cal_data : Nat) :
    (∀ n, (∀ k, k < n → cal_reg w.flash (cal_data + 2 * 3) k ≠ 0xffff) →
      cal_reg w.flash (cal_data + 2 * 3) n = 0xffff →
      ∀ fuel, ath_pci_fixup.loop fuel (cal_data + 2 * 3) w =
        if n < fuel then some (w.after_writes (cal_writes w.flash (cal_data + 2 * 3) n))
        else none) ∧
    ((∀ k, cal_reg w.flash (cal_data + 2 * 3) k ≠ 0xffff) →
      ∀ fuel, ath_pci_fixup.loop fuel (cal_data + 2 * 3) w = none) := by
  constructor
  · intro n hreg hend fuel
    by_cases hf : n < fuel
    · rw [if_pos hf]
      exact ath_pci_fixup.loop_run n fuel _ w hreg hend hf
    · rw [if_neg hf]
      exact ath_pci_fixup.loop_starved fuel _ w (fun k hk => hreg k (by omega))
  · intro hno fuel
    exact ath_pci_fixup.loop_starved fuel _ w (fun k _ => hno k)

/-- Witness of C7 (amended): the sample block, whose second triple has `0xffff` as its
value-low word, is applied up to the sentinel in register position. -/
theorem C7_list_ends_at_register_sentinel_witness :
    ath_pci_fixup.loop 3 (0xbf000000 + 2 * 3) (sample_world sample_flash (sample_config 0) 0)
      = some ((sample_world sample_flash (sample_config 0) 0).after_writes
          [(0x10, 0x56781234), (0x20, 0x1ffff)]) := by
  have h := (C7_list_ends_at_register_sentinel (sample_world sample_flash (sample_config 0) 0)
    0xbf000000).1 2 sample_flash_triples.1 sample_flash_triples.2 3
  rw [if_pos (by decide)] at h
  rw [h]
  exact congrArg (fun ws => some ((sample_world sample_flash (sample_config 0) 0).after_writes ws))
    sample_flash_writes

/-- C7 as stated fails: in the sample block the first word equal to `0xffff` after the
header is word 7, the value-low word of the second triple (words 6 to 8), so only the
first triple lies entirely before it; the loop nevertheless applies both triples. -/
theorem C7_counterexample :
    (read16 sample_flash (0xbf000000 + 2 * 7) = 0xffff ∧
      ∀ i, i < 7 → 3 ≤ i → read16 sample_flash (0xbf000000 + 2 * i) ≠ 0xffff) ∧
    ∃ w2, ath_pci_fixup.loop 3 (0xbf000000 + 2 * 3)
        (sample_world sample_flash (sample_config 0) 0) = some w2 ∧
      w2.log = [Event.raw_writel 0x10 0x56781234, Event.raw_writel 0x20 0x1ffff] := by
  refine ⟨by decide, _, ath_pci_fixup.loop_run 2 3 _ _ sample_flash_triples.1
    sample_flash_triples.2 (by decide), ?_⟩
  show [] ++ List.map (fun rv => Event.raw_writel rv.1 rv.2)
    (cal_writes sample_flash (0xbf000000 + 2 * 3) 2) = _
  rw [sample_flash_writes]
  rfl

/-- Witness of C8: the sample device reports vendor `0x168c`, device `0xff1d`,
revision `0x01` and class `0x028000`. -/
theorem C8_identity_refreshed_witness :
    ∃ w2, ath_pci_fixup ar71xx 3 true (sample_world sample_flash (sample_config 0) 0) = some w2 ∧
      w2.dev.vendor = 0x168c ∧ w2.dev.device = 0xff1d ∧ w2.dev.revision = 0x01 ∧
      w2.dev.class_ = 0x028000 := by
  obtain ⟨w2, v, c, h, _, _, hv, hc, _, h1, h2, h3, h4, _, _⟩ :=
    C8_identity_refreshed ar71xx 3 (sample_world sample_flash (sample_config 0) 0) 0xbf000000 2
      (sample_world_cal _).1 (Or.inl (sample_world_cal _).2.1) (sample_world_cal _).2.2
      sample_flash_triples.1 sample_flash_triples.2 (by decide)
  have ev : v = 0xff1d168c := by rw [hv]; decide
  have ec : c = 0x02800001 := by rw [hc]; decide
  subst ev ec
  exact ⟨w2, h, h1, h2, h3, h4⟩

/-! ## Facts about ar7100_pcibios_init -/

theorem windows_written_append (l1 l2 : List Event) :
    windows_written (l1 ++ l2) = windows_written l1 ++ windows_written l2 := by
  induction l1 with
  | nil => rfl
  | cons e l1 ih =>
    cases e <;> simp [windows_written, ih]

/-- While the enable flag is zero `ar71xx_pci_fixup` does nothing. -/
theorem ar71xx_pci_fixup_disabled (w : World) (h : w.ar71xx_pci_fixup_enable = 0) :
    ar71xx_pci_fixup w = w := by
  unfold ar71xx_pci_fixup
  rw [if_pos h]

/-- While the enable flag is zero `ath_pci_fixup` does nothing. -/
theorem ath_pci_fixup_disabled (P : Platform) (fuel : Nat) (ok : Bool) (w : World)
    (h : w.ar71xx_pci_fixup_enable = 0) : ath_pci_fixup P fuel ok w = some w := by
  unfold ath_pci_fixup
  rw [if_pos h]

theorem ar7100_pcibios_init.run_all (k : Nat) (w : World) (hk : 15 ≤ k) :
    ar7100_pcibios_init.run k w = ar7100_pcibios_init.run 15 w := by
  have hlen : ar7100_pcibios_init.steps.length = 15 := rfl
  unfold ar7100_pcibios_init.run
  rw [List.take_of_length_le (by omega), List.take_of_length_le (by omega)]

/-- C10: `ar7100_pcibios_init` writes the window registers 0 to 7, each once and in
increasing order, before it sets `ar71xx_pci_fixup_enable` and before it registers
the PCI controller: after any number `k` of its statements the windows written so far
are `0 .. m-1` for some `m ≤ 8`, and once the flag is set or the controller is
registered they are exactly `0 .. 7`. In every state in which the flag is zero
`ar71xx_pci_fixup` and `ath_pci_fixup` return with the state unchanged, so they log no
configuration-space access. The complete function ends with the flag set to 1. -/
theorem C10_windows_before_enable (w : World) (h0 : w.ar71xx_pci_fixup_enable = 0)
    (hlog : w.log = []) (k : Nat) :
    (∃ m, m ≤ 8 ∧ windows_written (ar7100_pcibios_init.run k w).log = List.range m) ∧
    ((ar7100_pcibios_init.run k w).ar71xx_pci_fixup_enable ≠ 0 ∨
        Event.register_pci_controller ∈ (ar7100_pcibios_init.run k w).log →
      windows_written (ar7100_pcibios_init.run k w).log = [0, 1, 2, 3, 4, 5, 6, 7]) ∧
    (∀ s : World, s.ar71xx_pci_fixup_enable = 0 →
      ar71xx_pci_fixup s = s ∧ ∀ P fuel ok, ath_pci_fixup P fuel ok s = some s) ∧
    (ar7100_pcibios_init w).ar71xx_pci_fixup_enable = 1 ∧
    windows_written (ar7100_pcibios_init w).log = [0, 1, 2, 3, 4, 5, 6, 7] := by
  refine ⟨?_, ?_, fun s h => ⟨ar71xx_pci_fixup_disabled s h,
    fun P fuel ok => ath_pci_fixup_disabled P fuel ok s h⟩, ?_, ?_⟩
  · rcases Nat.lt_or_ge k 15 with hk | hk
    · interval_cases k
      · exact ⟨0, by decide, by simp [ar7100_pcibios_init.run, hlog, windows_written]⟩
      · exact ⟨0, by decide, by
          simp [ar7100_pcibios_init.run, ar7100_pcibios_init.steps, World.emit, hlog,
            windows_written]⟩
      · exact ⟨0, by decide, by
          simp [ar7100_pcibios_init.run, ar7100_pcibios_init.steps, World.emit, hlog,
            windows_written]⟩
      · exact ⟨1, by decide, by
          simp [ar7100_pcibios_init.run, ar7100_pcibios_init.steps, World.emit, hlog,
            windows_written, List.range_succ]⟩
      · exact ⟨2, by decide, by
          simp [ar7100_pcibios_init.run, ar7100_pcibios_init.steps, World.emit, hlog,
            windows_written, List.range_succ]⟩
      · exact ⟨3, by decide, by
          simp [ar7100_pcibios_init.run, ar7100_pcibios_init.steps, World.emit, hlog,
            windows_written, List.range_succ]⟩
      · exact ⟨4, by decide, by
          simp [ar7100_pcibios_init.run, ar7100_pcibios_init.steps, World.emit, hlog,
            windows_written, List.range_succ]⟩
      · exact ⟨5, by decide, by
          simp [ar7100_pcibios_init.run, ar7100_pcibios_init.steps, World.emit, hlog,
            windows_written, List.range_succ]⟩
      · exact ⟨6, by decide, by
          simp [ar7100_pcibios_init.run, ar7100_pcibios_init.steps, World.emit, hlog,
            windows_written, List.range_succ]⟩
      · exact ⟨7, by decide, by
          simp [ar7100_pcibios_init.run, ar7100_pcibios_init.steps, World.emit, hlog,
            windows_written, List.range_succ]⟩
      all_goals exact ⟨8, by decide, by
          simp [ar7100_pcibios_init.run, ar7100_pcibios_init.steps, World.emit, hlog,
            windows_written, List.range_succ]⟩
    · rw [ar7100_pcibios_init.run_all k w hk]
      exact ⟨8, by decide, by
          simp [ar7100_pcibios_init.run, ar7100_pcibios_init.steps, World.emit, hlog,
            windows_written, List.range_succ]⟩
  · rcases Nat.lt_or_ge k 15 with hk | hk
    · interval_cases k <;>
        simp [ar7100_pcibios_init.run, ar7100_pcibios_init.steps, World.emit, hlog,
          windows_written, h0]
    · rw [ar7100_pcibios_init.run_all k w hk]
      simp [ar7100_pcibios_init.run, ar7100_pcibios_init.steps, World.emit, hlog,
        windows_written]
  · show (ar7100_pcibios_init.run 15 w).ar71xx_pci_fixup_enable = 1
    simp [ar7100_pcibios_init.run, ar7100_pcibios_init.steps, World.emit]
  · show windows_written (ar7100_pcibios_init.run 15 w).log = [0, 1, 2, 3, 4, 5, 6, 7]
    simp only [ar7100_pcibios_init.run, ar7100_pcibios_init.steps, List.take, List.foldl,
      World.emit, hlog]
    rfl

/-- Witness of C10: after the first five statements of `ar7100_pcibios_init` (two
resets, windows 0 to 2) the flag is still zero and both fixups leave the state alone. -/
theorem C10_windows_before_enable_witness :
    windows_written (ar7100_pcibios_init.run 5 boot_world).log = [0, 1, 2] ∧
    (ar7100_pcibios_init.run 5 boot_world).ar71xx_pci_fixup_enable = 0 ∧
    ar71xx_pci_fixup (ar7100_pcibios_init.run 5 boot_world)
      = ar7100_pcibios_init.run 5 boot_world ∧
    ath_pci_fixup ar71xx 3 true (ar7100_pcibios_init.run 5 boot_world)
      = some (ar7100_pcibios_init.run 5 boot_world) ∧
    windows_written (ar7100_pcibios_init boot_world).log = [0, 1, 2, 3, 4, 5, 6, 7] :=
  have h := C10_windows_before_enable boot_world rfl rfl 5
  ⟨rfl, rfl, (h.2.2.1 _ rfl).1, (h.2.2.1 _ rfl).2 ar71xx 3 true, h.2.2.2.2⟩

end AR7100
